import Mathlib

/-!
Object storage model of `js/src/vm/ObjectImpl.h`, and the gamepad list of
`dom/system/GamepadService.cpp`.

A shallow embedding of the object representation declared in `ObjectImpl.h`:
element headers, the object record with its fixed and dynamic slots, and the
slot addressing routines; then the list of gamepads the gamepad service keeps;
followed by the properties proved about them.

Conventions of the embedding.

* Addresses are byte addresses, represented as natural numbers.  Arithmetic
  the source performs on `uintptr_t` wraps at the pointer width of the target;
  indexing a `HeapSlot *` moves by `sizeof(Value)` bytes per element.
* `uint32_t` arithmetic wraps at `2 ^ 32`.
* A `MOZ_ASSERT` that fails aborts the program: functions carrying assertions
  return `Checked`, whose `assertFailed` is that abort.
-/

namespace js

/-! ## Target and data layout -/

/-- Target data model: it fixes the width of pointers, `uintptr_t` and `size_t`. -/
inductive Arch where
  | ilp32
  | lp64
  deriving DecidableEq, Repr

/-- Bytes in a pointer. -/
def Arch.ptrBytes : Arch → Nat
  | .ilp32 => 4
  | .lp64 => 8

/-- Number of distinct `uintptr_t` values; `uintptr_t` arithmetic is modulo this. -/
def Arch.wordMod (A : Arch) : Nat := 2 ^ (8 * A.ptrBytes)

/-- Number of distinct `uint32_t` values. -/
def U32 : Nat := 2 ^ 32

/-- Subtraction of two `uint32_t` values, as the machine performs it. -/
def u32sub (a b : Nat) : Nat := (a + U32 - b % U32) % U32

/-- Size and alignment of a C++ type. -/
structure CLayout where
  size : Nat
  align : Nat
  deriving DecidableEq, Repr

/-- Round `n` up to a multiple of `a`. -/
def alignUp (n a : Nat) : Nat := (n + a - 1) / a * a

/-- Layout of `uint32_t`. -/
def uint32_t : CLayout := ⟨4, 4⟩

/-- Layout of a data pointer (`Shape *`, `HeapSlot *`, `HeapPtrShape`, ...). -/
def pointerTo (A : Arch) : CLayout := ⟨A.ptrBytes, A.ptrBytes⟩

/-- Offsets of the members of a class, laid out in declaration order from `off`. -/
def memberOffsets : Nat → List CLayout → List Nat
  | _, [] => []
  | off, f :: fs => alignUp off f.align :: memberOffsets (alignUp off f.align + f.size) fs

/-- First byte after the last member of a class laid out from `off`. -/
def membersEnd : Nat → List CLayout → Nat
  | off, [] => off
  | off, f :: fs => membersEnd (alignUp off f.align + f.size) fs

/-- Strictest alignment among the members. -/
def maxAlign : List CLayout → Nat
  | [] => 1
  | f :: fs => max f.align (maxAlign fs)

/-- Largest member size. -/
def maxSize : List CLayout → Nat
  | [] => 0
  | f :: fs => max f.size (maxSize fs)

/-- Layout of a class with the given non-static data members. -/
def classOf (fs : List CLayout) : CLayout :=
  ⟨alignUp (membersEnd 0 fs) (maxAlign fs), maxAlign fs⟩

/-- Layout of a union with the given alternatives. -/
def unionOf (fs : List CLayout) : CLayout :=
  ⟨alignUp (maxSize fs) (maxAlign fs), maxAlign fs⟩

/-- Embedding of `offsetof` of the `i`-th member of a class. -/
def offsetofMember (fs : List CLayout) (i : Nat) : Nat :=
  (memberOffsets 0 fs).getD i 0

/-- Modelled from the spec: `jsval.h` is not part of the sources at hand; a
`Value` is the 64-bit jsval, so `sizeof(Value)` is 8 on every target. -/
def sizeofValue : Nat := 8

/-- Data members of `ElementsHeader`: `type`, `length`, and the anonymous union
of the `dense` class (`initializedLength`, `capacity`) and the `sparse` class
(`shape`). -/
def ElementsHeader.members (A : Arch) : List CLayout :=
  [uint32_t, uint32_t, unionOf [classOf [uint32_t, uint32_t], classOf [pointerTo A]]]

/-- Embedding of `sizeof(ElementsHeader)`. -/
def ElementsHeader.sizeof (A : Arch) : Nat := (classOf (ElementsHeader.members A)).size

/-- Embedding of `ElementsHeader::ValuesPerHeader`. -/
def ElementsHeader.ValuesPerHeader : Nat := 2

/-- Data members of `ObjectElements`: `capacity`, `initializedLength`, `length`,
`unused`. -/
def ObjectElements.members : List CLayout := [uint32_t, uint32_t, uint32_t, uint32_t]

/-- Embedding of `sizeof(ObjectElements)`. -/
def ObjectElements.sizeof : Nat := (classOf ObjectElements.members).size

/-- Embedding of `ObjectElements::VALUES_PER_HEADER`. -/
def ObjectElements.VALUES_PER_HEADER : Nat := 2

/-- Data members of `ObjectImpl`: `shape_`, `type_`, `slots`, `elements` (the
base `gc::Cell` has no data members). -/
def ObjectImpl.members (A : Arch) : List CLayout :=
  [pointerTo A, pointerTo A, pointerTo A, pointerTo A]

/-- Embedding of `sizeof(ObjectImpl)`. -/
def ObjectImpl.sizeof (A : Arch) : Nat := (classOf (ObjectImpl.members A)).size

/-! ## Assertions -/

/-- Outcome of code guarded by `MOZ_ASSERT`: a value, or the abort of a failed
assertion. -/
inductive Checked (α : Type) where
  | value : α → Checked α
  | assertFailed : Checked α
  deriving DecidableEq, Repr

/-- Sequencing: a failed assertion aborts everything after it. -/
def Checked.bind {α β : Type} : Checked α → (α → Checked β) → Checked β
  | .value a, f => f a
  | .assertFailed, _ => .assertFailed

/-- Embedding of `MOZ_ASSERT(c)` followed by the rest of the body. -/
def mozAssert {α : Type} (c : Bool) (rest : Checked α) : Checked α :=
  if c then rest else .assertFailed

/-- Whether the guarded code ran to completion. -/
def Checked.passes {α : Type} : Checked α → Bool
  | .value _ => true
  | .assertFailed => false

/-! ## Values and slot memory -/

/-- A jsval, by its 64-bit representation. -/
structure Value where
  asBits : Nat
  deriving DecidableEq, Repr

/-- Contents of the `HeapSlot` cells of memory, by byte address. -/
abbrev Heap := Nat → Value

/-- Read of the cell at address `a`. -/
def Heap.load (m : Heap) (a : Nat) : Value := m a

/-- Write of `v` to the cell at address `a`. -/
def Heap.store (m : Heap) (a : Nat) (v : Value) : Heap :=
  fun b => if b = a then v else m b

/-- Address of `p[i]` for a `HeapSlot *p`. -/
def slotPtrAdd (p i : Nat) : Nat := p + i * sizeofValue

/-- Subtraction of two `uintptr_t` values. -/
def uptrSub (A : Arch) (a b : Nat) : Nat := (a + A.wordMod - b % A.wordMod) % A.wordMod

/-- Addition of two `uintptr_t` values. -/
def uptrAdd (A : Arch) (a b : Nat) : Nat := (a + b) % A.wordMod

/-! ## Element headers -/

/-- The enumeration `ElementsKind`, in declaration order. -/
inductive ElementsKind where
  | DenseElements
  | SparseElements
  | Uint8Elements
  | Int8Elements
  | Uint16Elements
  | Int16Elements
  | Uint32Elements
  | Int32Elements
  | Uint8ClampedElements
  | Float32Elements
  | Float64Elements
  | ArrayBufferElements
  deriving DecidableEq, Repr

/-- Numeric value of an enumerator. -/
def ElementsKind.toNat : ElementsKind → Nat
  | .DenseElements => 0
  | .SparseElements => 1
  | .Uint8Elements => 2
  | .Int8Elements => 3
  | .Uint16Elements => 4
  | .Int16Elements => 5
  | .Uint32Elements => 6
  | .Int32Elements => 7
  | .Uint8ClampedElements => 8
  | .Float32Elements => 9
  | .Float64Elements => 10
  | .ArrayBufferElements => 11

/-- The conversion `ElementsKind(type)` of a tag that is at most
`ArrayBufferElements`. -/
def ElementsKind.ofTag : Nat → ElementsKind
  | 0 => .DenseElements
  | 1 => .SparseElements
  | 2 => .Uint8Elements
  | 3 => .Int8Elements
  | 4 => .Uint16Elements
  | 5 => .Int16Elements
  | 6 => .Uint32Elements
  | 7 => .Int32Elements
  | 8 => .Uint8ClampedElements
  | 9 => .Float32Elements
  | 10 => .Float64Elements
  | _ => .ArrayBufferElements

/-- The anonymous union inside `ElementsHeader`: the `dense` member or the
`sparse` member. -/
inductive ElementsUnion where
  | dense (initializedLength capacity : Nat)
  | sparse (shape : Nat)
  deriving DecidableEq, Repr

/-- The class `ElementsHeader`. -/
structure ElementsHeader where
  type : Nat
  length : Nat
  u : ElementsUnion
  deriving DecidableEq, Repr

namespace ElementsHeader

/-- Embedding of `ElementsHeader::kind`. -/
def kind (h : ElementsHeader) : Checked ElementsKind :=
  mozAssert (decide (h.type ≤ ElementsKind.ArrayBufferElements.toNat))
    (.value (ElementsKind.ofTag h.type))

/-- The comparison `kind() == k` that every `is*Elements` performs. -/
def kindIs (h : ElementsHeader) (k : ElementsKind) : Checked Bool :=
  (kind h).bind fun k0 => .value (decide (k0 = k))

/-- Embedding of `ElementsHeader::isDenseElements`. -/
def isDenseElements (h : ElementsHeader) : Checked Bool := kindIs h .DenseElements
/-- Embedding of `ElementsHeader::isSparseElements`. -/
def isSparseElements (h : ElementsHeader) : Checked Bool := kindIs h .SparseElements
/-- Embedding of `ElementsHeader::isUint8Elements`. -/
def isUint8Elements (h : ElementsHeader) : Checked Bool := kindIs h .Uint8Elements
/-- Embedding of `ElementsHeader::isInt8Elements`. -/
def isInt8Elements (h : ElementsHeader) : Checked Bool := kindIs h .Int8Elements
/-- Embedding of `ElementsHeader::isUint16Elements`. -/
def isUint16Elements (h : ElementsHeader) : Checked Bool := kindIs h .Uint16Elements
/-- Embedding of `ElementsHeader::isInt16Elements`. -/
def isInt16Elements (h : ElementsHeader) : Checked Bool := kindIs h .Int16Elements
/-- Embedding of `ElementsHeader::isUint32Elements`. -/
def isUint32Elements (h : ElementsHeader) : Checked Bool := kindIs h .Uint32Elements
/-- Embedding of `ElementsHeader::isInt32Elements`. -/
def isInt32Elements (h : ElementsHeader) : Checked Bool := kindIs h .Int32Elements
/-- Embedding of `ElementsHeader::isUint8ClampedElements`. -/
def isUint8ClampedElements (h : ElementsHeader) : Checked Bool := kindIs h .Uint8ClampedElements
/-- Embedding of `ElementsHeader::isFloat32Elements`. -/
def isFloat32Elements (h : ElementsHeader) : Checked Bool := kindIs h .Float32Elements
/-- Embedding of `ElementsHeader::isFloat64Elements`. -/
def isFloat64Elements (h : ElementsHeader) : Checked Bool := kindIs h .Float64Elements
/-- Embedding of `ElementsHeader::isArrayBufferElements`. -/
def isArrayBufferElements (h : ElementsHeader) : Checked Bool := kindIs h .ArrayBufferElements

/-- Body shared by the `as*Elements` accessors: `MOZ_ASSERT(is...())`, then the
`static_cast` of `this`, which yields the same header under the narrower type. -/
def narrow (h : ElementsHeader) (is : Checked Bool) : Checked ElementsHeader :=
  is.bind fun b => mozAssert b (.value h)

/-- Embedding of `ElementsHeader::asDenseElements`. -/
def asDenseElements (h : ElementsHeader) : Checked ElementsHeader := narrow h (isDenseElements h)
/-- Embedding of `ElementsHeader::asSparseElements`. -/
def asSparseElements (h : ElementsHeader) : Checked ElementsHeader := narrow h (isSparseElements h)
/-- Embedding of `ElementsHeader::asUint8Elements`. -/
def asUint8Elements (h : ElementsHeader) : Checked ElementsHeader := narrow h (isUint8Elements h)
/-- Embedding of `ElementsHeader::asInt8Elements`. -/
def asInt8Elements (h : ElementsHeader) : Checked ElementsHeader := narrow h (isInt8Elements h)
/-- Embedding of `ElementsHeader::asUint16Elements`. -/
def asUint16Elements (h : ElementsHeader) : Checked ElementsHeader := narrow h (isUint16Elements h)
/-- Embedding of `ElementsHeader::asInt16Elements`. -/
def asInt16Elements (h : ElementsHeader) : Checked ElementsHeader := narrow h (isInt16Elements h)
/-- Embedding of `ElementsHeader::asUint32Elements`. -/
def asUint32Elements (h : ElementsHeader) : Checked ElementsHeader := narrow h (isUint32Elements h)
/-- Embedding of `ElementsHeader::asInt32Elements`. -/
def asInt32Elements (h : ElementsHeader) : Checked ElementsHeader := narrow h (isInt32Elements h)
/-- Embedding of `ElementsHeader::asUint8ClampedElements`. -/
def asUint8ClampedElements (h : ElementsHeader) : Checked ElementsHeader :=
  narrow h (isUint8ClampedElements h)
/-- Embedding of `ElementsHeader::asFloat32Elements`. -/
def asFloat32Elements (h : ElementsHeader) : Checked ElementsHeader := narrow h (isFloat32Elements h)
/-- Embedding of `ElementsHeader::asFloat64Elements`. -/
def asFloat64Elements (h : ElementsHeader) : Checked ElementsHeader := narrow h (isFloat64Elements h)
/-- Embedding of `ElementsHeader::asArrayBufferElements`. -/
def asArrayBufferElements (h : ElementsHeader) : Checked ElementsHeader :=
  narrow h (isArrayBufferElements h)

/-- The accessor that names kind `k`. -/
def accessorFor : ElementsKind → ElementsHeader → Checked ElementsHeader
  | .DenseElements => asDenseElements
  | .SparseElements => asSparseElements
  | .Uint8Elements => asUint8Elements
  | .Int8Elements => asInt8Elements
  | .Uint16Elements => asUint16Elements
  | .Int16Elements => asInt16Elements
  | .Uint32Elements => asUint32Elements
  | .Int32Elements => asInt32Elements
  | .Uint8ClampedElements => asUint8ClampedElements
  | .Float32Elements => asFloat32Elements
  | .Float64Elements => asFloat64Elements
  | .ArrayBufferElements => asArrayBufferElements

/-- Embedding of `ElementsHeader::fromElements`: the address of the header of the elements
array at address `elems`. -/
def fromElements (A : Arch) (elems : Nat) : Nat := uptrSub A elems (ElementsHeader.sizeof A)

end ElementsHeader

namespace ObjectElements

/-- Embedding of `ObjectElements::elements`, for the header at address `self`. -/
def elements (A : Arch) (self : Nat) : Nat := uptrAdd A self ObjectElements.sizeof

/-- Embedding of `ObjectElements::fromElements`. -/
def fromElements (A : Arch) (elems : Nat) : Nat := uptrSub A elems ObjectElements.sizeof

end ObjectElements

/-! ## Objects -/

/-- Modelled from the spec: `Shape` is declared in `jsscope.h`, which is not
part of the sources at hand.  The spec gives a shape the layout of the
properties of its objects: the number of fixed inline slots and the slot span. -/
structure Shape where
  numFixedSlots : Nat
  slotSpan : Nat
  deriving DecidableEq, Repr

/-- The class `ObjectImpl`: its four data members, and the address `this` of the
object. -/
structure ObjectImpl where
  this : Nat
  shape_ : Shape
  type_ : Nat
  slots : Nat
  elements : Nat
  deriving DecidableEq, Repr

/-- Modelled from the spec: `shadow::Object::numFixedSlots` is declared in
`jsfriendapi.h`, which is not part of the sources at hand.  The spec derives
the count from the shape of the object. -/
def shadow.Object.numFixedSlots (shape : Shape) : Nat := shape.numFixedSlots

namespace ObjectImpl

/-- Embedding of `ObjectImpl::SLOT_CAPACITY_MIN`. -/
def SLOT_CAPACITY_MIN : Nat := 8

/-- Embedding of `ObjectImpl::numFixedSlots`: the shadow view of the object is asked, and the
`size_t` it answers is converted to `uint32_t`. -/
def numFixedSlots (obj : ObjectImpl) : Nat := shadow.Object.numFixedSlots obj.shape_ % U32

/-- Modelled from the spec: the body of `ObjectImpl::slotSpan` is not part of
the sources at hand.  The slot span is the total number of property slots the
shape of the object gives it. -/
def slotSpan (obj : ObjectImpl) : Nat := obj.shape_.slotSpan % U32

/-- Modelled from the spec: the body of `ObjectImpl::dynamicSlotsCount` is not
part of the sources at hand.  It computes the dynamic capacity required to
cover `span` slots of which `nfixed` are inline: none when all slots fit
inline, otherwise the slots that do not fit, and never a non-zero amount below
`SLOT_CAPACITY_MIN`. -/
def dynamicSlotsCount (nfixed span : Nat) : Nat :=
  if span ≤ nfixed then 0 else max SLOT_CAPACITY_MIN (span - nfixed)

/-- Modelled from the spec: the body of `ObjectImpl::numDynamicSlots` is not
part of the sources at hand; its declaration says it computes
`dynamicSlotsCount()` for this object. -/
def numDynamicSlots (obj : ObjectImpl) : Nat :=
  dynamicSlotsCount (numFixedSlots obj) (slotSpan obj)

/-- Modelled from the spec: the body of `ObjectImpl::slotInRange` is not part of
the sources at hand; its declaration says it checks that `slot` is in range for
the allocated slots of the object, and that with the sentinel allowed `slot`
may equal the slot capacity. -/
def slotInRange (obj : ObjectImpl) (slot : Nat) (sentinelAllowed : Bool) : Bool :=
  if sentinelAllowed then decide (slot ≤ numFixedSlots obj + numDynamicSlots obj)
  else decide (slot < numFixedSlots obj + numDynamicSlots obj)

/-- Embedding of `ObjectImpl::fixedSlots`. -/
def fixedSlots (A : Arch) (obj : ObjectImpl) : Nat := uptrAdd A obj.this (ObjectImpl.sizeof A)

/-- Embedding of `ObjectImpl::getSlot`. -/
def getSlot (A : Arch) (m : Heap) (obj : ObjectImpl) (slot : Nat) : Checked Value :=
  mozAssert (slotInRange obj slot false)
    (let fixed := numFixedSlots obj
     if slot < fixed then .value (m.load (slotPtrAdd (fixedSlots A obj) slot))
     else .value (m.load (slotPtrAdd obj.slots (u32sub slot fixed))))

/-- Embedding of `ObjectImpl::getSlotAddressUnchecked`. -/
def getSlotAddressUnchecked (A : Arch) (obj : ObjectImpl) (slot : Nat) : Nat :=
  let fixed := numFixedSlots obj
  if slot < fixed then slotPtrAdd (fixedSlots A obj) slot
  else slotPtrAdd obj.slots (u32sub slot fixed)

/-- Embedding of `ObjectImpl::getSlotAddress`. -/
def getSlotAddress (A : Arch) (obj : ObjectImpl) (slot : Nat) : Checked Nat :=
  mozAssert (slotInRange obj slot true) (.value (getSlotAddressUnchecked A obj slot))

/-- Embedding of `ObjectImpl::getSlotRef`: the reference is represented by its address. -/
def getSlotRef (A : Arch) (obj : ObjectImpl) (slot : Nat) : Checked Nat :=
  mozAssert (slotInRange obj slot false) (getSlotAddress A obj slot)

/-- Embedding of `ObjectImpl::getFixedSlotRef`: the reference is represented by its address. -/
def getFixedSlotRef (A : Arch) (obj : ObjectImpl) (slot : Nat) : Checked Nat :=
  mozAssert (decide (slot < numFixedSlots obj)) (.value (slotPtrAdd (fixedSlots A obj) slot))

/-- Embedding of `ObjectImpl::getFixedSlot`. -/
def getFixedSlot (A : Arch) (m : Heap) (obj : ObjectImpl) (slot : Nat) : Checked Value :=
  mozAssert (decide (slot < numFixedSlots obj))
    (.value (m.load (slotPtrAdd (fixedSlots A obj) slot)))

/-- Embedding of `ObjectImpl::getElementsHeader`: the address of the `ObjectElements` header. -/
def getElementsHeader (A : Arch) (obj : ObjectImpl) : Nat :=
  ObjectElements.fromElements A obj.elements

/-- Embedding of `ObjectImpl::elementsHeader`: the address of the `ElementsHeader`. -/
def elementsHeader (A : Arch) (obj : ObjectImpl) : Nat :=
  ElementsHeader.fromElements A obj.elements

/-- Embedding of `ObjectImpl::fixedElements`: the address `&fixedSlots()[2]`. -/
def fixedElements (A : Arch) (obj : ObjectImpl) : Nat := slotPtrAdd (fixedSlots A obj) 2

/-- Embedding of `ObjectImpl::setFixedElements`. -/
def setFixedElements (A : Arch) (obj : ObjectImpl) : ObjectImpl :=
  { obj with elements := fixedElements A obj }

/-- Embedding of `ObjectImpl::hasDynamicElements`; `emptyObjectElements` is the value of the
global of that name, which is defined outside the sources at hand. -/
def hasDynamicElements (A : Arch) (emptyObjectElements : Nat) (obj : ObjectImpl) : Bool :=
  obj.elements != emptyObjectElements && obj.elements != fixedElements A obj

end ObjectImpl

/-! ## Slot writes -/

/-- Events of a slot write that the collector observes, and the store itself. -/
inductive SlotEvent where
  | barrierPre (old : Value)
  | store (location : Nat) (v : Value)
  | barrierPost (location : Nat)
  deriving DecidableEq, Repr

/-- Slot memory together with the events recorded so far, oldest first. -/
structure SlotMemory where
  heap : Heap
  events : List SlotEvent

/-- Modelled from the spec: the barriered store of `HeapSlot::set` is not part
of the sources at hand.  The spec prescribes, for a slot write, the pre-write
barrier with the old value, then the store, then the post-write barrier
recording the location. -/
def barrieredStore (st : SlotMemory) (location : Nat) (v : Value) : SlotMemory :=
  { heap := st.heap.store location v
    events := st.events ++ [SlotEvent.barrierPre (st.heap.load location),
                            SlotEvent.store location v,
                            SlotEvent.barrierPost location] }

namespace ObjectImpl

/-- Modelled from the spec: the body of `ObjectImpl::setSlot` is not part of the
sources at hand.  The spec has it bounds-checked against the slot span of the
object, routed to fixed or dynamic storage by the same addressing as `getSlot`
(here through `getSlotRef`), and performed under the barrier protocol. -/
def setSlot (A : Arch) (st : SlotMemory) (obj : ObjectImpl) (slot : Nat) (v : Value) : Checked SlotMemory :=
  mozAssert (decide (slot < slotSpan obj))
    ((getSlotRef A obj slot).bind fun location => .value (barrieredStore st location v))

/-- A run of `setSlot` calls, in order. -/
def setSlots (A : Arch) (obj : ObjectImpl) : SlotMemory → List (Nat × Value) → Checked SlotMemory
  | st, [] => .value st
  | st, (slot, v) :: rest => (setSlot A st obj slot v).bind fun st1 => setSlots A obj st1 rest

/-- The bytes `[this, this + sizeof(ObjectImpl) + inlineValues * sizeof(Value))`
that an object allocated with room for `inlineValues` inline values occupies;
the result is the end of the block. -/
def blockEnd (A : Arch) (obj : ObjectImpl) (inlineValues : Nat) : Nat :=
  obj.this + ObjectImpl.sizeof A + inlineValues * sizeofValue

/-- The dynamic slot array of the object has `numDynamicSlots()` entries and
shares no byte with the fixed slots. -/
def slotsLayoutOk (A : Arch) (obj : ObjectImpl) : Prop :=
  fixedSlots A obj + numFixedSlots obj * sizeofValue ≤ obj.slots ∨
    obj.slots + numDynamicSlots obj * sizeofValue ≤ fixedSlots A obj

/-- An elements array of `capacity` values at address `elems`, preceded by its
header, is allocated separately from the object (whose block has room for
`inlineValues` inline values) and from the shared empty singleton: the object
lies inside the address space, the header fits below `elems`, the two blocks
share no byte, and `elems` is not the singleton. -/
def separatelyAllocated (A : Arch) (emptyObjectElements : Nat) (obj : ObjectImpl)
    (inlineValues elems capacity : Nat) : Prop :=
  blockEnd A obj inlineValues ≤ A.wordMod ∧
    ObjectElements.sizeof ≤ elems ∧
    (blockEnd A obj inlineValues ≤ elems - ObjectElements.sizeof ∨
      elems + capacity * sizeofValue ≤ obj.this) ∧
    elems ≠ emptyObjectElements

end ObjectImpl

instance (A : Arch) (obj : ObjectImpl) : Decidable (ObjectImpl.slotsLayoutOk A obj) := by
  unfold ObjectImpl.slotsLayoutOk; infer_instance

instance (A : Arch) (e : Nat) (obj : ObjectImpl) (n elems c : Nat) :
    Decidable (ObjectImpl.separatelyAllocated A e obj n elems c) := by
  unfold ObjectImpl.separatelyAllocated; infer_instance

/-! ## Dense element storage -/

/-- Embedding of `ObjectImpl::DenseElementsResult`. -/
inductive DenseElementsResult where
  | Failure
  | ConvertToSparse
  | Succeeded
  deriving DecidableEq, Repr

namespace DenseElementsHeader

/-- The member of the union that a dense header keeps active.  Reading `dense`
while `sparse` is the active member has no defined result; it is treated like a
failed assertion. -/
def denseMember (h : ElementsHeader) : Checked (Nat × Nat) :=
  match h.u with
  | .dense il cap => .value (il, cap)
  | .sparse _ => .assertFailed

/-- Embedding of `DenseElementsHeader::capacity`. -/
def capacity (h : ElementsHeader) : Checked Nat :=
  (ElementsHeader.isDenseElements h).bind fun b =>
    mozAssert b ((denseMember h).bind fun d => .value d.2)

/-- Embedding of `DenseElementsHeader::initializedLength`. -/
def initializedLength (h : ElementsHeader) : Checked Nat :=
  (ElementsHeader.isDenseElements h).bind fun b =>
    mozAssert b ((denseMember h).bind fun d => .value d.1)

/-- Embedding of `DenseElementsHeader::length`. -/
def length (h : ElementsHeader) : Checked Nat :=
  (ElementsHeader.isDenseElements h).bind fun b => mozAssert b (.value h.length)

end DenseElementsHeader

/-- The invariant of dense elements stated on `ObjectElements::initializedLength`:
the header is dense, and its initialized length is at most its capacity and at
most its length. -/
def denseInvariant (h : ElementsHeader) : Bool :=
  match DenseElementsHeader.initializedLength h, DenseElementsHeader.capacity h,
      DenseElementsHeader.length h with
  | .value il, .value cap, .value len => decide (il ≤ cap) && decide (il ≤ len)
  | _, _, _ => false

/-- The elements of an object: the header and the element cells by index. -/
structure Elements where
  header : ElementsHeader
  cells : Nat → Value

/-- Arguments of `defineElement` after the context and the object: the index,
the value, the getter and setter (absent when null) and the attributes. -/
structure DefineArgs where
  index : Nat
  value : Value
  getter : Option Nat
  setter : Option Nat
  attrs : Nat
  deriving DecidableEq, Repr

/-- Modelled from the spec: the spec leaves open where dense storage is too
sparse to grow and by how much it grows.  `tooSparse capacity length index`
says that growing to hold `index` exceeds the threshold; `grow capacity index`
is the room allocated beyond `index`, or nothing when the allocation fails;
`sparseShape` is the shape the conversion to sparse installs. -/
structure DensePolicy where
  tooSparse : Nat → Nat → Nat → Bool
  grow : Nat → Nat → Option Nat
  sparseShape : ElementsHeader → Nat

/-- Modelled from the spec: the body of `DenseElementsHeader::defineElement` is
not part of the sources at hand.  By the spec: an index below the capacity is
written directly, the initialized length and the length growing as needed; an
index whose growth exceeds the threshold is answered `ConvertToSparse`, the
header changing to the sparse kind in place; otherwise the storage grows to
hold the index, or the call fails when the allocation does.  The answer is the
three-valued one the spec gives the strategy; the declaration in the source
gives the member function the result type `bool`. -/
def DenseElementsHeader.defineElement (P : DensePolicy) (e : Elements) (a : DefineArgs) :
    Checked (DenseElementsResult × Elements) :=
  (DenseElementsHeader.capacity e.header).bind fun cap =>
  (DenseElementsHeader.initializedLength e.header).bind fun il =>
  (DenseElementsHeader.length e.header).bind fun len =>
    if a.index < cap then
      .value (.Succeeded,
        { header := { e.header with
                        length := max len (a.index + 1)
                        u := .dense (max il (a.index + 1)) cap }
          cells := fun i => if i = a.index then a.value else e.cells i })
    else if P.tooSparse cap len a.index then
      .value (.ConvertToSparse,
        { e with header := { type := ElementsKind.SparseElements.toNat
                             length := len
                             u := .sparse (P.sparseShape e.header) } })
    else
      match P.grow cap a.index with
      | none => .value (.Failure, e)
      | some room =>
        .value (.Succeeded,
          { header := { e.header with
                          length := max len (a.index + 1)
                          u := .dense (max il (a.index + 1)) (a.index + 1 + room) }
            cells := fun i => if i = a.index then a.value else e.cells i })

/-- A run of dense `defineElement` calls, in order.  The run ends with the first
call answered `ConvertToSparse`, after which the caller has to dispatch on the
kind of the header again. -/
def defineElements (P : DensePolicy) : Elements → List DefineArgs →
    Checked (List DenseElementsResult × Elements)
  | e, [] => .value ([], e)
  | e, a :: rest =>
    (DenseElementsHeader.defineElement P e a).bind fun r =>
      match r.1 with
      | .ConvertToSparse => .value ([DenseElementsResult.ConvertToSparse], r.2)
      | res => (defineElements P r.2 rest).bind fun q => .value (res :: q.1, q.2)

/-! ## Placeholders of the new object representation -/

/-- Modelled from the spec: `MOZ_NOT_REACHED` and `NEW_OBJECT_REPRESENTATION_ONLY`
are macros defined outside the sources at hand.  They mark code that is not to
be reached: in a debug build (`debug`) they abort like a failed assertion, in
a release build they do nothing. -/
def notReached {α : Type} (debug : Bool) (rest : Checked α) : Checked α :=
  if debug then .assertFailed else rest

/-- Embedding of `ObjectImpl::ensureDenseElementsInitialized`: after the two
markers the body returns `Failure`, whatever the index and the extra. -/
def ObjectImpl.ensureDenseElementsInitialized (debug : Bool) (_index _extra : Nat) :
    Checked DenseElementsResult :=
  notReached debug (notReached debug (.value .Failure))

/-- Embedding of `ObjectImpl::makeElementsSparse`, on the elements of the object:
after the two markers the body returns `false` and has changed nothing. -/
def ObjectImpl.makeElementsSparse (debug : Bool) (e : Elements) : Checked (Bool × Elements) :=
  notReached debug (notReached debug (.value (false, e)))

/-! ## Kinds of elements -/

/-- The enumerators of `ElementsKind`, in declaration order. -/
def ElementsKind.all : List ElementsKind :=
  [.DenseElements, .SparseElements, .Uint8Elements, .Int8Elements, .Uint16Elements,
    .Int16Elements, .Uint32Elements, .Int32Elements, .Uint8ClampedElements,
    .Float32Elements, .Float64Elements, .ArrayBufferElements]

/-- The element types `T` of the instances of `TypedElementsHeader<T>`. -/
inductive ElementType where
  | uint8_t
  | int8_t
  | uint16_t
  | int16_t
  | uint32_t
  | int32_t
  | float
  | double
  deriving DecidableEq, Repr

/-- The element type of a kind whose header class derives from
`TypedElementsHeader<T>`; no element type for the other kinds. -/
def ElementsKind.elementType : ElementsKind → Option ElementType
  | .Uint8Elements => some .uint8_t
  | .Int8Elements => some .int8_t
  | .Uint16Elements => some .uint16_t
  | .Int16Elements => some .int16_t
  | .Uint32Elements => some .uint32_t
  | .Int32Elements => some .int32_t
  | .Uint8ClampedElements => some .uint8_t
  | .Float32Elements => some .float
  | .Float64Elements => some .double
  | .DenseElements => none
  | .SparseElements => none
  | .ArrayBufferElements => none

/-- Whether the kind is a numeric typed kind: its header class derives from
`TypedElementsHeader<T>`. -/
def ElementsKind.isTyped (k : ElementsKind) : Bool := k.elementType.isSome

/-! ## Typed element storage -/

/-- Embedding of `TypedElementsHeader<T>::byteLength`. -/
def TypedElementsHeader.byteLength (h : ElementsHeader) : Nat := h.length

/-- Modelled from the spec: the attribute flags and the conversion of a value to
the element type are defined outside the sources at hand.  `plainAttrs` tells
the attribute words that mean a plain writable, enumerable, configurable
property; `convert` gives the element stored for a value under a kind. -/
structure TypedPolicy where
  plainAttrs : Nat → Bool
  convert : ElementsKind → Value → Value

/-- Modelled from the spec: the body of `TypedElementsHeader<T>::defineElement`
is not part of the sources at hand; its declared result is `bool`.  By the
spec typed storage has a fixed length and never grows, and a definition with
an accessor, with attributes other than the plain ones, or at an index out of
range is rejected; any other definition writes the element. -/
def TypedElementsHeader.defineElement (T : TypedPolicy) (e : Elements) (a : DefineArgs) :
    Bool × Elements :=
  if a.getter.isSome || a.setter.isSome then (false, e)
  else if !T.plainAttrs a.attrs then (false, e)
  else if e.header.length ≤ a.index then (false, e)
  else
    (true,
      { e with
        cells := fun i =>
          if i = a.index then T.convert (ElementsKind.ofTag e.header.type) a.value
          else e.cells i })

/-- Modelled from the spec: the body of `ArrayBufferElementsHeader::defineElement`
is not part of the sources at hand; its declared result is `bool`.  By the
spec raw buffer storage follows the rule of typed storage, its length being
the byte length. -/
def ArrayBufferElementsHeader.defineElement (T : TypedPolicy) (e : Elements)
    (a : DefineArgs) : Bool × Elements :=
  if a.getter.isSome || a.setter.isSome then (false, e)
  else if !T.plainAttrs a.attrs then (false, e)
  else if e.header.length ≤ a.index then (false, e)
  else
    (true,
      { e with
        cells := fun i =>
          if i = a.index then T.convert .ArrayBufferElements a.value else e.cells i })

/-- The `defineElement` of the header class of a typed or raw buffer kind. -/
def fixedLengthDefineElement (k : ElementsKind) (T : TypedPolicy) (e : Elements)
    (a : DefineArgs) : Bool × Elements :=
  match k with
  | .ArrayBufferElements => ArrayBufferElementsHeader.defineElement T e a
  | _ => TypedElementsHeader.defineElement T e a

/-! ## Sparse element storage and the result contract -/

namespace SparseElementsHeader

/-- The member of the union that a sparse header keeps active.  Reading `sparse`
while `dense` is the active member has no defined result; it is treated like a
failed assertion. -/
def sparseMember (h : ElementsHeader) : Checked Nat :=
  match h.u with
  | .sparse shape => .value shape
  | .dense _ _ => .assertFailed

/-- Embedding of `SparseElementsHeader::shape`. -/
def shape (h : ElementsHeader) : Checked Nat :=
  (ElementsHeader.isSparseElements h).bind fun b => mozAssert b (sparseMember h)

/-- Embedding of `SparseElementsHeader::length`. -/
def length (h : ElementsHeader) : Checked Nat :=
  (ElementsHeader.isSparseElements h).bind fun b => mozAssert b (.value h.length)

end SparseElementsHeader

/-- Modelled from the spec: `Shape` and the properties it holds are declared in
`jsscope.h`, which is not part of the sources at hand.  By the spec sparse
storage boxes every index as a property with its own attributes on the
auxiliary shape structure.  `addProperty shape a` is the shape that holds the
property of the definition `a` on top of `shape`, or nothing when the property
cannot be allocated. -/
structure SparsePolicy where
  addProperty : Nat → DefineArgs → Option Nat

/-- Modelled from the spec: the body of `SparseElementsHeader::defineElement` is
not part of the sources at hand.  By the spec the index, however far from the
others, is boxed as a property with its own attributes on the auxiliary
shape structure, and a failed allocation is reported as a failure.  The shape
and the length are read through the accessors of the class; the length grows as
needed, as it does for dense storage.  The answer is the three-valued one of
the result contract of the spec; the declaration in the source gives the member
function the result type `bool`. -/
def SparseElementsHeader.defineElement (S : SparsePolicy) (e : Elements) (a : DefineArgs) :
    Checked (DenseElementsResult × Elements) :=
  (SparseElementsHeader.shape e.header).bind fun shape =>
  (SparseElementsHeader.length e.header).bind fun len =>
    match S.addProperty shape a with
    | none => .value (.Failure, e)
    | some shape1 =>
      .value (.Succeeded,
        { header := { e.header with
                        length := max len (a.index + 1)
                        u := .sparse shape1 }
          cells := fun i => if i = a.index then a.value else e.cells i })

namespace ObjectImpl

/-- Modelled from the spec: the body of `ObjectImpl::setFixedSlot` is not part of
the sources at hand.  The slot is one known to be fixed, addressed as
`getFixedSlotRef` does, and written under the same barrier protocol as by
`setSlot`. -/
def setFixedSlot (A : Arch) (st : SlotMemory) (obj : ObjectImpl) (slot : Nat) (v : Value) :
    Checked SlotMemory :=
  (getFixedSlotRef A obj slot).bind fun location => .value (barrieredStore st location v)

/-- The three events of one slot write under the protocol, in order: pre-write
barrier with the old value, store, post-write barrier with the location. -/
def writeEvents (old : Value) (location : Nat) (v : Value) : List SlotEvent :=
  [SlotEvent.barrierPre old, SlotEvent.store location v, SlotEvent.barrierPost location]

/-- Replay of recorded events on a heap: every store has to come between a
pre-write barrier carrying the value the location holds at that moment and a
post-write barrier carrying the location.  The result is the heap after the
events, or nothing when an event is out of protocol. -/
def replay : Heap → List SlotEvent → Option Heap
  | m, [] => some m
  | m, .barrierPre old :: .store location v :: .barrierPost posted :: rest =>
    if old = m.load location ∧ posted = location then replay (m.store location v) rest
    else none
  | _, _ => none

/-- Embedding of `ObjectImpl::offsetOfFixedElements`, in `size_t` arithmetic. -/
def offsetOfFixedElements (A : Arch) : Nat :=
  uptrAdd A (ObjectImpl.sizeof A) ObjectElements.sizeof

/-- Embedding of `ObjectImpl::getFixedSlotOffset`, in `size_t` arithmetic. -/
def getFixedSlotOffset (A : Arch) (slot : Nat) : Nat :=
  uptrAdd A (ObjectImpl.sizeof A) (slot * sizeofValue % A.wordMod)

/-- Embedding of `ObjectImpl::getPrivateDataOffset`. -/
def getPrivateDataOffset (A : Arch) (nfixed : Nat) : Nat := getFixedSlotOffset A nfixed

end ObjectImpl

end js

/-! ## Gamepad service (`dom/system/GamepadService.cpp`) -/

namespace mozilla.dom

/-- Number of distinct `PRUint32` values. -/
def U32 : Nat := 2 ^ 32

/-- Conversion of a `PRUint32` to `int`. -/
def toInt32 (n : Nat) : Int :=
  if n % U32 < 2 ^ 31 then ((n % U32 : Nat) : Int) else ((n % U32 : Nat) : Int) - (U32 : Int)

/-- Conversion of an `int` to `PRUint32`. -/
def toUint32 (z : Int) : Nat := (z % (U32 : Int)).toNat

/-- Subtraction of two `PRUint32` values. -/
def subUint32 (a b : Nat) : Nat := (a % U32 + U32 - b % U32) % U32

/-- Modelled from the spec: the class `nsDOMGamepad` is declared outside the
sources at hand (`nsDOMGamepad.h`) and the spec leaves the gamepad backends
out of its scope; a gamepad is represented by the members that the calls the
service makes name. -/
structure nsDOMGamepad where
  id : String
  index : Nat
  numButtons : Nat
  numAxes : Nat
  connected : Bool
  deriving DecidableEq, Repr

/-- The call `new nsDOMGamepad(id, index, numButtons, numAxes)`. -/
def nsDOMGamepad.create (id : String) (index numButtons numAxes : Nat) : nsDOMGamepad :=
  { id := id, index := index, numButtons := numButtons, numAxes := numAxes, connected := true }

/-- The call `SetIndex(index)`. -/
def nsDOMGamepad.SetIndex (g : nsDOMGamepad) (index : Nat) : nsDOMGamepad :=
  { g with index := index }

/-- The call `SetConnected(connected)`. -/
def nsDOMGamepad.SetConnected (g : nsDOMGamepad) (connected : Bool) : nsDOMGamepad :=
  { g with connected := connected }

/-- Outcome of code that dereferences entries of the gamepad list: the state it
leaves, or the dereference of a null `nsRefPtr`. -/
inductive Outcome (α : Type) where
  | done : α → Outcome α
  | nullDereference : Outcome α
  deriving DecidableEq, Repr

/-- The members of `GamepadService` that the list operations use: the list
`mGamepads`, whose entries may be null, the flag `mShuttingDown`, and the
connection notifications passed on to the listening windows, oldest first. -/
structure GamepadService where
  mGamepads : List (Option nsDOMGamepad)
  mShuttingDown : Bool
  notified : List (Nat × Bool)
  deriving DecidableEq, Repr

namespace GamepadService

/-- Embedding of `GamepadService::NewConnectionEvent`: nothing happens while
shutting down or for an index past the list; otherwise the event goes to the
windows, which leaves `mGamepads` as it is. -/
def NewConnectionEvent (s : GamepadService) (index : Nat) (connected : Bool) :
    GamepadService :=
  if s.mShuttingDown || decide (s.mGamepads.length ≤ index) then s
  else { s with notified := s.notified ++ [(index, connected)] }

/-- The loop of `AddGamepad` from position `i` on: the position of the first
null entry, if there is one. -/
def firstEmpty : Nat → List (Option nsDOMGamepad) → Option Nat
  | _, [] => none
  | i, none :: _ => some i
  | i, some _ :: rest => firstEmpty (i + 1) rest

/-- Embedding of `GamepadService::AddGamepad`: the index returned and the state
left.  The gamepad is shared by reference between the list and the local
variable, so the list holds it with the index `SetIndex` gave it. -/
def AddGamepad (s : GamepadService) (id : String) (numButtons numAxes : Nat) :
    Nat × GamepadService :=
  let gamepad := nsDOMGamepad.create id 0 numButtons numAxes
  let found := firstEmpty 0 s.mGamepads
  let index0 : Int :=
    match found with
    | some i => toInt32 i
    | none => -1
  let appended : Bool := decide (index0 = -1)
  let lengthAfter := if appended then s.mGamepads.length + 1 else s.mGamepads.length
  let index : Int := if appended then toInt32 (subUint32 lengthAfter 1) else index0
  let stored := (gamepad.SetIndex (toUint32 index))
  let filled :=
    match found with
    | some i => s.mGamepads.set i (some stored)
    | none => s.mGamepads
  let list := if appended then filled ++ [some stored] else filled
  (toUint32 index, NewConnectionEvent { s with mGamepads := list } (toUint32 index) true)

/-- Embedding of `GamepadService::RemoveGamepad`. -/
def RemoveGamepad (s : GamepadService) (index : Nat) : Outcome GamepadService :=
  if index < s.mGamepads.length then
    match s.mGamepads.get? index with
    | some (some g) =>
      let s1 := NewConnectionEvent
        { s with mGamepads := s.mGamepads.set index (some (g.SetConnected false)) } index false
      if index = subUint32 s1.mGamepads.length 1 then
        .done { s1 with mGamepads := s1.mGamepads.eraseIdx index }
      else
        .done { s1 with mGamepads := s1.mGamepads.set index none }
    | _ => .nullDereference
  else .done s

end GamepadService

/-! ### Quantities of type `float` -/

/-- The values of the type `float` (binary32), as rationals: a significand of
24 bits times a power of two within the range of exponents. -/
def isBinary32 (q : ℚ) : Prop :=
  ∃ m e : Int, |m| < 2 ^ 24 ∧ -149 ≤ e ∧ e ≤ 104 ∧ q = (m : ℚ) * (2 : ℚ) ^ e

/-- What the embedding takes of the rounding that `float` arithmetic applies to
an exact result: it is monotone, and a value of the type is its own rounding.
A `float` constant such as `1.0` is exact. -/
structure IsRounding (round : ℚ → ℚ) : Prop where
  mono : ∀ a b : ℚ, a ≤ b → round a ≤ round b
  exact : ∀ q : ℚ, isBinary32 q → round q = q

/-! ### Input events of a gamepad -/

/-- Modelled from the spec: the setters `SetButton` and `SetAxis` of the class
`nsDOMGamepad` are declared outside the sources at hand and the spec leaves the
gamepad backends out of its scope; they are taken as given functions. -/
structure GamepadSetters where
  SetButton : nsDOMGamepad → Nat → Nat → nsDOMGamepad
  SetAxis : nsDOMGamepad → Nat → ℚ → nsDOMGamepad

/-- A call a backend makes on the service to report input. -/
inductive ServiceCall where
  | NewButtonEvent (index button : Nat) (pressed : Bool)
  | NewAxisMoveEvent (index axis : Nat) (value : ℚ)
  deriving DecidableEq, Repr

namespace GamepadService

/-- What follows the setter in `NewButtonEvent` and `NewAxisMoveEvent`: with a
focused window that has not seen the gamepad (`focus = some false`) a
connection event is sent first; the event itself goes to the window and leaves
the service as it is. -/
def afterInput (focus : Option Bool) (s : GamepadService) (index : Nat) : GamepadService :=
  match focus with
  | some false => NewConnectionEvent s index true
  | _ => s

/-- Embedding of `GamepadService::NewButtonEvent`; `focus` tells whether there is
a focused window and whether it has seen the gamepad. -/
def NewButtonEvent (setters : GamepadSetters) (focus : Option Bool) (s : GamepadService)
    (index button : Nat) (pressed : Bool) : Outcome GamepadService :=
  if s.mShuttingDown || decide (s.mGamepads.length ≤ index) then .done s
  else
    match s.mGamepads.get? index with
    | some (some g) =>
      .done (afterInput focus
        { s with
          mGamepads :=
            s.mGamepads.set index (some (setters.SetButton g button (if pressed then 1 else 0))) }
        index)
    | _ => .nullDereference

/-- Embedding of `GamepadService::NewAxisMoveEvent`; `focus` as for
`NewButtonEvent`. -/
def NewAxisMoveEvent (setters : GamepadSetters) (focus : Option Bool) (s : GamepadService)
    (index axis : Nat) (value : ℚ) : Outcome GamepadService :=
  if s.mShuttingDown || decide (s.mGamepads.length ≤ index) then .done s
  else
    match s.mGamepads.get? index with
    | some (some g) =>
      .done (afterInput focus
        { s with
          mGamepads := s.mGamepads.set index (some (setters.SetAxis g axis value)) }
        index)
    | _ => .nullDereference

/-- A call that changes the list of gamepads. -/
inductive ListCall where
  | add (id : String) (numButtons numAxes : Nat)
  | remove (index : Nat)
  deriving DecidableEq, Repr

/-- A run of `AddGamepad` and `RemoveGamepad` calls, in order. -/
def runCalls : GamepadService → List ListCall → Outcome GamepadService
  | s, [] => .done s
  | s, .add id numButtons numAxes :: rest => runCalls (AddGamepad s id numButtons numAxes).2 rest
  | s, .remove index :: rest =>
    match RemoveGamepad s index with
    | .done s1 => runCalls s1 rest
    | .nullDereference => .nullDereference

end GamepadService

/-! ### Windows backend (`dom/system/windows/WindowsGamepadService.cpp`) -/

namespace windows

/-- The constant `kMaxAxisValue`, a `LONG`. -/
def kMaxAxisValue : Int := 65535

/-- The constant `BUTTON_DOWN_MASK`, a `DWORD`. -/
def BUTTON_DOWN_MASK : Nat := 0x80

/-- The constant `DI_DEGREES` of `dinput.h`: a hat position is in hundredths of
a degree clockwise from north. -/
def DI_DEGREES : Nat := 100

/-- The macro `LOWORD` of `windows.h`: the low 16 bits. -/
def LOWORD (l : Nat) : Nat := l % 65536

/-- The struct `HatState`: two `float` members. -/
structure HatState where
  x : ℚ
  y : ℚ
  deriving DecidableEq, Repr

/-- The members of the struct `Gamepad` that running an event reads. -/
structure Gamepad where
  id : Int
  numAxes : Int
  numHats : Int
  numButtons : Int
  deriving DecidableEq, Repr

/-- Embedding of `HatPosToAxes`: `axes` is filled in place, and keeps what it
held when the position is none of those the function knows. -/
def HatPosToAxes (hatPos : Nat) (axes : HatState) : HatState :=
  if LOWORD hatPos = 0xFFFF then { x := 0, y := 0 }
  else if hatPos = 0 then { x := 0, y := -1 }
  else if hatPos = 45 * DI_DEGREES then { x := 1, y := -1 }
  else if hatPos = 90 * DI_DEGREES then { x := 1, y := 0 }
  else if hatPos = 135 * DI_DEGREES then { x := 1, y := 1 }
  else if hatPos = 180 * DI_DEGREES then { x := 0, y := 1 }
  else if hatPos = 225 * DI_DEGREES then { x := -1, y := 1 }
  else if hatPos = 270 * DI_DEGREES then { x := -1, y := 0 }
  else if hatPos = 315 * DI_DEGREES then { x := -1, y := -1 }
  else axes

/-- The enumeration `GamepadEvent::Type`. -/
inductive EventType where
  | Axis
  | Button
  | HatX
  | HatY
  | HatXY
  | Unknown
  deriving DecidableEq, Repr

/-- The class `GamepadEvent`: its four data members. -/
structure GamepadEvent where
  mGamepad : Gamepad
  mType : EventType
  mWhich : Int
  mData : Nat
  deriving DecidableEq, Repr

namespace GamepadEvent

/-- The block under the labels `HatX`, `HatY` and `HatXY` of the switch in `Run`;
`uninitialized` is what the local `hatState` holds before `HatPosToAxes`. -/
def hatBlock (uninitialized : HatState) (ev : GamepadEvent) : List ServiceCall :=
  let hatState := HatPosToAxes ev.mData uninitialized
  let xAxis : Int := ev.mGamepad.numAxes + 2 * ev.mWhich
  let yAxis : Int := ev.mGamepad.numAxes + 2 * ev.mWhich + 1
  (if ev.mType = .HatX ∨ ev.mType = .HatXY then
      [ServiceCall.NewAxisMoveEvent (toUint32 ev.mGamepad.id) (toUint32 xAxis) hatState.x]
    else []) ++
  (if ev.mType = .HatY ∨ ev.mType = .HatXY then
      [ServiceCall.NewAxisMoveEvent (toUint32 ev.mGamepad.id) (toUint32 yAxis) hatState.y]
    else [])

/-- The value `adjustedData` of the `Axis` case: every `float` operation rounds
its exact result. -/
def adjustedData (round : ℚ → ℚ) (mData : Nat) : ℚ :=
  round (round (round (round (mData : ℚ) * 2) / round (kMaxAxisValue : ℚ)) - 1)

/-- Embedding of `GamepadEvent::Run` of the Windows backend: the calls it makes on
the service, in order.  The `Axis` case has no `break` and runs on into the
block of the hat cases. -/
def Run (round : ℚ → ℚ) (uninitialized : HatState) (ev : GamepadEvent) : List ServiceCall :=
  match ev.mType with
  | .Button =>
    [ServiceCall.NewButtonEvent (toUint32 ev.mGamepad.id) (toUint32 ev.mWhich)
      (decide (Nat.land ev.mData BUTTON_DOWN_MASK ≠ 0))]
  | .Axis =>
    [ServiceCall.NewAxisMoveEvent (toUint32 ev.mGamepad.id) (toUint32 ev.mWhich)
      (adjustedData round ev.mData)] ++ hatBlock uninitialized ev
  | .HatX => hatBlock uninitialized ev
  | .HatY => hatBlock uninitialized ev
  | .HatXY => hatBlock uninitialized ev
  | .Unknown => []

end GamepadEvent

end windows

/-! ### Linux backend (`dom/system/unix/LinuxGamepadService.cpp`) -/

namespace unix

/-- The constant `kMaxAxisValue`, a `float`. -/
def kMaxAxisValue : ℚ := 32767

/-- The constant `JS_EVENT_BUTTON` of `linux/joystick.h`. -/
def JS_EVENT_BUTTON : Nat := 0x01

/-- The constant `JS_EVENT_AXIS` of `linux/joystick.h`. -/
def JS_EVENT_AXIS : Nat := 0x02

/-- The struct `js_event` of `linux/joystick.h`: `value` is a signed 16-bit
integer, `type` and `number` are unsigned 8-bit integers. -/
structure js_event where
  time : Nat
  value : Int
  type : Nat
  number : Nat
  deriving DecidableEq, Repr

/-- The values a signed 16-bit integer takes. -/
def isInt16 (v : Int) : Prop := -32768 ≤ v ∧ v ≤ 32767

/-- The member of the struct `Gamepad` that running an event reads. -/
structure Gamepad where
  index : Int
  deriving DecidableEq, Repr

/-- The normalized axis value `((float)mEvent.value) / kMaxAxisValue`: the
conversion of a 16-bit integer is exact, the quotient is rounded. -/
def normalizedAxis (round : ℚ → ℚ) (value : Int) : ℚ :=
  round ((value : ℚ) / kMaxAxisValue)

/-- Embedding of `GamepadEvent::Run` of the Linux backend: the calls it makes on
the service. -/
def GamepadEvent.Run (round : ℚ → ℚ) (mGamepad : Gamepad) (mEvent : js_event) :
    List ServiceCall :=
  if mEvent.type = JS_EVENT_BUTTON then
    [ServiceCall.NewButtonEvent (toUint32 mGamepad.index) mEvent.number
      (decide (mEvent.value ≠ 0))]
  else if mEvent.type = JS_EVENT_AXIS then
    [ServiceCall.NewAxisMoveEvent (toUint32 mGamepad.index) mEvent.number
      (normalizedAxis round mEvent.value)]
  else []

end unix

/-- A service that has no gamepad and is not shutting down. -/
def service0 : GamepadService := { mGamepads := [], mShuttingDown := false, notified := [] }

/-- The service after two gamepads were added to `service0`. -/
def serviceTwo : GamepadService :=
  ((service0.AddGamepad "pad a" 4 2).2.AddGamepad "pad b" 8 4).2

/-- The gamepad list after the first of the two gamepads of `serviceTwo` was
removed: a null entry followed by the second gamepad. -/
def listWithHole : List (Option nsDOMGamepad) :=
  [none, some { id := "pad b", index := 1, numButtons := 8, numAxes := 4, connected := true }]

/-- Setters that leave the gamepad as it is. -/
def settersKeep : GamepadSetters :=
  { SetButton := fun g _ _ => g, SetAxis := fun g _ _ => g }

/-- The service with the list `listWithHole`, as `serviceTwo` is after
`RemoveGamepad(0)`. -/
def serviceWithHole : GamepadService :=
  { mGamepads := listWithHole
    mShuttingDown := false
    notified := [(0, true), (1, true), (0, false)] }

/-- A gamepad of the Windows backend with the service index 1, four axes, one
hat and eight buttons. -/
def windowsPad : windows.Gamepad := { id := 1, numAxes := 4, numHats := 1, numButtons := 8 }

/-- An axis event of the Linux backend carrying the least 16-bit value. -/
def axisEventMin : unix.js_event := { time := 0, value := -32768, type := 0x02, number := 3 }

/-- An axis event of the Linux backend carrying the value 16000. -/
def axisEventMid : unix.js_event := { time := 0, value := 16000, type := 0x02, number := 3 }

end mozilla.dom

namespace js

/-! ## Predicates by kind, and the header `ObjectElements` -/

/-- The predicate `is*Elements` that names kind `k`. -/
def ElementsHeader.predicateFor : ElementsKind → ElementsHeader → Checked Bool
  | .DenseElements => ElementsHeader.isDenseElements
  | .SparseElements => ElementsHeader.isSparseElements
  | .Uint8Elements => ElementsHeader.isUint8Elements
  | .Int8Elements => ElementsHeader.isInt8Elements
  | .Uint16Elements => ElementsHeader.isUint16Elements
  | .Int16Elements => ElementsHeader.isInt16Elements
  | .Uint32Elements => ElementsHeader.isUint32Elements
  | .Int32Elements => ElementsHeader.isInt32Elements
  | .Uint8ClampedElements => ElementsHeader.isUint8ClampedElements
  | .Float32Elements => ElementsHeader.isFloat32Elements
  | .Float64Elements => ElementsHeader.isFloat64Elements
  | .ArrayBufferElements => ElementsHeader.isArrayBufferElements

/-- The class `ObjectElements`: its four data members, each a `uint32_t`. -/
structure ObjectElements where
  capacity : Nat
  initializedLength : Nat
  length : Nat
  unused : Nat
  deriving DecidableEq, Repr

/-- The constructor `ObjectElements(capacity, length)`.  Its initializer list
names `capacity`, `initializedLength` and `length`; the member `unused` is left
with whatever the memory held, here `garbage`. -/
def ObjectElements.create (capacity length garbage : Nat) : ObjectElements :=
  { capacity := capacity, initializedLength := 0, length := length, unused := garbage }

/-- The property the comment on `initializedLength` states: the initialized
length is at most the capacity and at most the length. -/
def ObjectElements.initializedWithin (h : ObjectElements) : Prop :=
  h.initializedLength ≤ h.capacity ∧ h.initializedLength ≤ h.length

/-- The conversion `(int)` of a `size_t`. -/
def castInt (n : Nat) : Int :=
  if n % U32 < 2 ^ 31 then ((n % U32 : Nat) : Int) else ((n % U32 : Nat) : Int) - (U32 : Int)

/-- Embedding of `ObjectElements::offsetOfCapacity`. -/
def ObjectElements.offsetOfCapacity : Int :=
  castInt (offsetofMember ObjectElements.members 0) - castInt ObjectElements.sizeof

/-- Embedding of `ObjectElements::offsetOfInitializedLength`. -/
def ObjectElements.offsetOfInitializedLength : Int :=
  castInt (offsetofMember ObjectElements.members 1) - castInt ObjectElements.sizeof

/-- Embedding of `ObjectElements::offsetOfLength`. -/
def ObjectElements.offsetOfLength : Int :=
  castInt (offsetofMember ObjectElements.members 2) - castInt ObjectElements.sizeof

/-- Address of the `i`-th data member of the `ObjectElements` at address
`header`. -/
def ObjectElements.memberAddress (A : Arch) (header i : Nat) : Nat :=
  uptrAdd A header (offsetofMember ObjectElements.members i)

/-- Address that code given an offset computes from the elements address
`elems`: the sum, at the width of a pointer. -/
def addressAt (A : Arch) (elems : Nat) (offset : Int) : Nat :=
  (((elems : Int) + offset) % (A.wordMod : Int)).toNat

/-! ## Inputs used to exercise the theorems -/

/-- Slot memory holding the jsval `0` everywhere, with no event recorded. -/
def mem0 : SlotMemory := { heap := fun _ => ⟨0⟩, events := [] }

/-- An object at address 4096 with four fixed slots and slot span six, whose
dynamic slots are at address 8192. -/
def obj46 : ObjectImpl :=
  { this := 4096, shape_ := ⟨4, 6⟩, type_ := 512, slots := 8192, elements := 64 }

/-- Another object of the same shape as `obj46`, at another address and with
other slots, type and elements. -/
def obj46b : ObjectImpl :=
  { this := 12288, shape_ := ⟨4, 6⟩, type_ := 1024, slots := 16384, elements := 12336 }

/-- An object at address 4096 allocated with no inline values, as its shape has
no fixed slot: its block is the 32 bytes of `ObjectImpl` on the 64-bit target. -/
def objNoInline : ObjectImpl :=
  { this := 4096, shape_ := ⟨0, 0⟩, type_ := 512, slots := 0, elements := 64 }

/-- A dense header of type tag 0 with two of four allocated elements initialized
and length three. -/
def denseHeader0 : ElementsHeader := { type := 0, length := 3, u := .dense 2 4 }

/-- Dense elements under `denseHeader0`, holding the jsval `0` everywhere. -/
def elements0 : Elements := { header := denseHeader0, cells := fun _ => ⟨0⟩ }

/-- A policy that finds an index too sparse from 1024 past the capacity on,
doubles the room on growth, and never fails to allocate. -/
def policy0 : DensePolicy :=
  { tooSparse := fun capacity _ index => decide (capacity + 1024 ≤ index)
    grow := fun _ index => some index
    sparseShape := fun _ => 0 }

/-- Three plain definitions: inside the capacity, inside the initialized part,
and past the capacity. -/
def calls0 : List DefineArgs :=
  [⟨3, ⟨7⟩, none, none, 1⟩, ⟨0, ⟨8⟩, none, none, 1⟩, ⟨9, ⟨9⟩, none, none, 1⟩]

/-- Typed elements of kind `Uint8Elements` with fixed length 4. -/
def uint8Elements0 : Elements :=
  { header := { type := 2, length := 4, u := .dense 0 0 }, cells := fun _ => ⟨0⟩ }

/-- A typed policy whose plain attribute word is 1 and whose conversion keeps
the low eight bits. -/
def typedPolicy0 : TypedPolicy :=
  { plainAttrs := fun attrs => decide (attrs = 1)
    convert := fun _ v => ⟨v.asBits % 256⟩ }

/-- A definition with a getter, at an index inside the fixed length. -/
def getterDefine : DefineArgs := ⟨1, ⟨5⟩, some 4096, none, 1⟩

@[simp] theorem Checked.bind_value {α β : Type} (a : α) (f : α → Checked β) :
    (Checked.value a).bind f = f a := rfl

@[simp] theorem Checked.bind_assertFailed {α β : Type} (f : α → Checked β) :
    (Checked.assertFailed : Checked α).bind f = .assertFailed := rfl

@[simp] theorem mozAssert_true {α : Type} (r : Checked α) : mozAssert true r = r := rfl

@[simp] theorem mozAssert_false {α : Type} (r : Checked α) :
    mozAssert false r = .assertFailed := rfl

theorem U32_eq : U32 = 4294967296 := by norm_num [U32]

theorem u32sub_of_le {a b : Nat} (hba : b ≤ a) (ha : a < U32) : u32sub a b = a - b := by
  unfold u32sub
  rw [U32_eq] at *
  omega

theorem wordMod_pos (A : Arch) : 0 < A.wordMod := by
  cases A <;> norm_num [Arch.wordMod, Arch.ptrBytes]

namespace ObjectImpl

theorem slotSpan_lt (obj : ObjectImpl) : slotSpan obj < U32 := by
  unfold slotSpan
  exact Nat.mod_lt _ (by norm_num [U32])

theorem span_le_capacity (nfixed span : Nat) : span ≤ nfixed + dynamicSlotsCount nfixed span := by
  unfold dynamicSlotsCount
  split
  · omega
  · have := le_max_right SLOT_CAPACITY_MIN (span - nfixed)
    omega

theorem slotInRange_of_lt_span {obj : ObjectImpl} {slot : Nat} (h : slot < slotSpan obj)
    (sentinel : Bool) : slotInRange obj slot sentinel = true := by
  have hc := span_le_capacity (numFixedSlots obj) (slotSpan obj)
  unfold slotInRange numDynamicSlots
  cases sentinel <;> simp <;> omega

/-- Within the slot span, `getSlot` reads the cell `getSlotAddressUnchecked` names. -/
theorem getSlot_eq_load {obj : ObjectImpl} {slot : Nat} (A : Arch) (m : Heap)
    (h : slot < slotSpan obj) :
    getSlot A m obj slot = .value (m.load (getSlotAddressUnchecked A obj slot)) := by
  unfold getSlot getSlotAddressUnchecked
  rw [slotInRange_of_lt_span h]
  by_cases hf : slot < numFixedSlots obj <;> simp [hf]

/-- Within the slot span, `getSlotRef` passes its assertions. -/
theorem getSlotRef_eq {obj : ObjectImpl} {slot : Nat} (A : Arch) (h : slot < slotSpan obj) :
    getSlotRef A obj slot = .value (getSlotAddressUnchecked A obj slot) := by
  unfold getSlotRef getSlotAddress
  rw [slotInRange_of_lt_span h, slotInRange_of_lt_span h]
  rfl

/-- Within the slot span, `setSlot` passes its assertions and stores at the cell
`getSlotAddressUnchecked` names. -/
theorem setSlot_eq {obj : ObjectImpl} {slot : Nat} (A : Arch) (st : SlotMemory) (v : Value)
    (h : slot < slotSpan obj) :
    setSlot A st obj slot v =
      .value (barrieredStore st (getSlotAddressUnchecked A obj slot) v) := by
  unfold setSlot
  rw [getSlotRef_eq A h]
  simp [h]

theorem load_store_same (m : Heap) (a : Nat) (v : Value) : (m.store a v).load a = v := by
  simp [Heap.load, Heap.store]

theorem load_store_other (m : Heap) {a b : Nat} (v : Value) (h : b ≠ a) :
    (m.store a v).load b = m.load b := by
  simp [Heap.load, Heap.store, h]

/-- Under the layout invariant, distinct slots within the span have distinct cells. -/
theorem getSlotAddressUnchecked_injective {A : Arch} {obj : ObjectImpl} {i j : Nat}
    (hl : slotsLayoutOk A obj) (hi : i < slotSpan obj) (hj : j < slotSpan obj) (hij : i ≠ j) :
    getSlotAddressUnchecked A obj i ≠ getSlotAddressUnchecked A obj j := by
  have hs := slotSpan_lt obj
  have hc := span_le_capacity (numFixedSlots obj) (slotSpan obj)
  unfold slotsLayoutOk numDynamicSlots at hl
  unfold getSlotAddressUnchecked slotPtrAdd
  simp only [sizeofValue] at *
  by_cases hfi : i < numFixedSlots obj <;> by_cases hfj : j < numFixedSlots obj
  · simp only [hfi, hfj, if_true]; omega
  · simp only [hfi, hfj, if_true, if_false]
    rw [u32sub_of_le (by omega) (by omega)]
    omega
  · simp only [hfi, hfj, if_true, if_false]
    rw [u32sub_of_le (by omega) (by omega)]
    omega
  · simp only [hfi, hfj, if_false]
    rw [u32sub_of_le (by omega) (by omega), u32sub_of_le (by omega) (by omega)]
    omega

/-- Under the layout invariant, a `setSlot` leaves every other slot as it was. -/
theorem getSlot_setSlot_other {A : Arch} {obj : ObjectImpl} {i j : Nat} (st : SlotMemory) (v : Value)
    (hl : slotsLayoutOk A obj) (hi : i < slotSpan obj) (hj : j < slotSpan obj) (hij : j ≠ i) :
    ∃ st1, setSlot A st obj i v = .value st1 ∧
      getSlot A st1.heap obj j = getSlot A st.heap obj j := by
  refine ⟨_, setSlot_eq A st v hi, ?_⟩
  rw [getSlot_eq_load A _ hj, getSlot_eq_load A _ hj]
  simp only [barrieredStore]
  rw [load_store_other _ _ (getSlotAddressUnchecked_injective hl hj hi hij)]

/-- Within the slot span, a `setSlot` is read back by `getSlot` at the same slot. -/
theorem getSlot_setSlot_same {obj : ObjectImpl} {i : Nat} (A : Arch) (st : SlotMemory)
    (v : Value) (hi : i < slotSpan obj) :
    ∃ st1, setSlot A st obj i v = .value st1 ∧ getSlot A st1.heap obj i = .value v := by
  refine ⟨_, setSlot_eq A st v hi, ?_⟩
  rw [getSlot_eq_load A _ hi]
  simp only [barrieredStore]
  rw [load_store_same]

/-- A run of `setSlot` calls on slots within the span passes every assertion,
leaves the slots it does not name as they were, and, when it names no slot
twice, is read back by `getSlot` at every slot it names. -/
theorem setSlots_spec {A : Arch} {obj : ObjectImpl} (hl : slotsLayoutOk A obj) :
    ∀ (ws : List (Nat × Value)) (st : SlotMemory), (∀ w ∈ ws, w.1 < slotSpan obj) →
      ∃ st1, setSlots A obj st ws = .value st1 ∧
        (∀ j, j < slotSpan obj → j ∉ ws.map Prod.fst →
          getSlot A st1.heap obj j = getSlot A st.heap obj j) ∧
        ((ws.map Prod.fst).Nodup → ∀ w ∈ ws, getSlot A st1.heap obj w.1 = .value w.2) := by
  intro ws
  induction ws with
  | nil =>
    intro st _
    exact ⟨st, rfl, fun _ _ _ => rfl, fun _ w hw => by cases hw⟩
  | cons w rest ih =>
    intro st hr
    obtain ⟨i, v⟩ := w
    have hi : i < slotSpan obj := hr (i, v) (List.mem_cons_self _ _)
    have hrest : ∀ w ∈ rest, w.1 < slotSpan obj := fun w hw => hr w (List.mem_cons_of_mem _ hw)
    obtain ⟨st2, hrun, hframe, hread⟩ := ih (barrieredStore st (getSlotAddressUnchecked A obj i) v) hrest
    refine ⟨st2, ?_, ?_, ?_⟩
    · simp only [setSlots]
      rw [setSlot_eq A st v hi]
      exact hrun
    · intro j hj hnot
      simp only [List.map_cons, List.mem_cons, not_or] at hnot
      rw [hframe j hj hnot.2]
      obtain ⟨st1, h1, h2⟩ := getSlot_setSlot_other st v hl hi hj hnot.1
      rw [setSlot_eq A st v hi] at h1
      cases h1
      exact h2
    · intro hnd u hu
      simp only [List.map_cons, List.nodup_cons] at hnd
      rcases List.mem_cons.mp hu with hu | hu
      · subst hu
        rw [hframe i hi hnd.1]
        obtain ⟨st1, h1, h2⟩ := getSlot_setSlot_same A st v hi
        rw [setSlot_eq A st v hi] at h1
        cases h1
        exact h2
      · exact hread hnd.2 u hu

/-! ## Slot addressing -/

/-- C1: for a slot index below the slot span, `getSlot` passes its assertion and
returns the fixed inline slot `slot` (the one `getFixedSlot` reads) when
`slot < numFixedSlots()`, and entry `slot - numFixedSlots()` of the dynamic
slots array otherwise. -/
theorem getSlot_fixed_or_dynamic (A : Arch) (m : Heap) (obj : ObjectImpl) (slot : Nat)
    (h : slot < slotSpan obj) :
    (slot < numFixedSlots obj →
      getSlot A m obj slot = .value (m.load (slotPtrAdd (fixedSlots A obj) slot)) ∧
        getSlot A m obj slot = getFixedSlot A m obj slot) ∧
    (numFixedSlots obj ≤ slot →
      getSlot A m obj slot =
        .value (m.load (slotPtrAdd obj.slots (slot - numFixedSlots obj)))) := by
  have hs := slotSpan_lt obj
  constructor
  · intro hf
    unfold getSlot getFixedSlot
    rw [slotInRange_of_lt_span h]
    simp [hf]
  · intro hf
    unfold getSlot
    rw [slotInRange_of_lt_span h]
    simp only [mozAssert_true, if_neg (Nat.not_lt.mpr hf)]
    rw [u32sub_of_le hf (by omega)]

/-- Instance of C1 at dynamic slot 5 of `obj46`. -/
theorem getSlot_fixed_or_dynamic_witness :
    5 < slotSpan obj46 ∧
      ((5 < numFixedSlots obj46 →
          getSlot .lp64 mem0.heap obj46 5
              = .value (mem0.heap.load (slotPtrAdd (fixedSlots .lp64 obj46) 5)) ∧
            getSlot .lp64 mem0.heap obj46 5 = getFixedSlot .lp64 mem0.heap obj46 5) ∧
        (numFixedSlots obj46 ≤ 5 →
          getSlot .lp64 mem0.heap obj46 5
            = .value (mem0.heap.load (slotPtrAdd obj46.slots (5 - numFixedSlots obj46))))) :=
  ⟨by decide, getSlot_fixed_or_dynamic .lp64 mem0.heap obj46 5 (by decide)⟩

/-- C2: for a slot index below the slot span and any value, `setSlot` passes its
assertions, and `getSlot` on the memory it leaves returns the value stored. -/
theorem setSlot_then_getSlot (A : Arch) (st : SlotMemory) (obj : ObjectImpl) (i : Nat)
    (v : Value) (h : i < slotSpan obj) :
    ∃ st1, setSlot A st obj i v = .value st1 ∧ getSlot A st1.heap obj i = .value v :=
  getSlot_setSlot_same A st v h

/-- Instance of C2 at fixed slot 2 of `obj46`. -/
theorem setSlot_then_getSlot_witness :
    2 < slotSpan obj46 ∧
      ∃ st1, setSlot .ilp32 mem0 obj46 2 ⟨77⟩ = .value st1 ∧
        getSlot .ilp32 st1.heap obj46 2 = .value ⟨77⟩ :=
  ⟨by decide, setSlot_then_getSlot .ilp32 mem0 obj46 2 ⟨77⟩ (by decide)⟩

/-- C3: `dynamicSlotsCount(nfixed, span)` is at least the number `span - nfixed`
of slots that do not fit inline; for four fixed slots and span six it is at
least 2, and on an object of that shape laid out accordingly `setSlot` on the
slots 0 to 5 passes, after which the six `getSlot` calls return the values
stored. -/
theorem dynamicSlotsCount_covers_span :
    (∀ nfixed span : Nat, span - nfixed ≤ dynamicSlotsCount nfixed span) ∧
    2 ≤ dynamicSlotsCount 4 6 ∧
    (∀ (A : Arch) (st : SlotMemory) (obj : ObjectImpl) (v0 v1 v2 v3 v4 v5 : Value),
      numFixedSlots obj = 4 → slotSpan obj = 6 → slotsLayoutOk A obj →
      ∃ st1, setSlots A obj st [(0, v0), (1, v1), (2, v2), (3, v3), (4, v4), (5, v5)]
          = .value st1 ∧
        getSlot A st1.heap obj 0 = .value v0 ∧ getSlot A st1.heap obj 1 = .value v1 ∧
        getSlot A st1.heap obj 2 = .value v2 ∧ getSlot A st1.heap obj 3 = .value v3 ∧
        getSlot A st1.heap obj 4 = .value v4 ∧ getSlot A st1.heap obj 5 = .value v5) := by
  refine ⟨?_, by decide, ?_⟩
  · intro nfixed span
    have := span_le_capacity nfixed span
    omega
  · intro A st obj v0 v1 v2 v3 v4 v5 _ hspan hl
    obtain ⟨st1, hrun, -, hread⟩ :=
      setSlots_spec hl [(0, v0), (1, v1), (2, v2), (3, v3), (4, v4), (5, v5)] st
        (by intro w hw; simp at hw; rcases hw with h | h | h | h | h | h <;> subst h <;> omega)
    have hnd : (List.map Prod.fst
        [(0, v0), (1, v1), (2, v2), (3, v3), (4, v4), (5, v5)]).Nodup := by
      simp only [List.map_cons, List.map_nil]
      decide
    exact ⟨st1, hrun, hread hnd (0, v0) (by simp), hread hnd (1, v1) (by simp),
      hread hnd (2, v2) (by simp), hread hnd (3, v3) (by simp),
      hread hnd (4, v4) (by simp), hread hnd (5, v5) (by simp)⟩

/-- Instance of C3 at `obj46`, storing the jsvals 10 to 15. -/
theorem dynamicSlotsCount_covers_span_witness :
    numFixedSlots obj46 = 4 ∧ slotSpan obj46 = 6 ∧ slotsLayoutOk .lp64 obj46 ∧
      ∃ st1, setSlots .lp64 obj46 mem0
          [(0, ⟨10⟩), (1, ⟨11⟩), (2, ⟨12⟩), (3, ⟨13⟩), (4, ⟨14⟩), (5, ⟨15⟩)] = .value st1 ∧
        getSlot .lp64 st1.heap obj46 0 = .value ⟨10⟩ ∧
        getSlot .lp64 st1.heap obj46 1 = .value ⟨11⟩ ∧
        getSlot .lp64 st1.heap obj46 2 = .value ⟨12⟩ ∧
        getSlot .lp64 st1.heap obj46 3 = .value ⟨13⟩ ∧
        getSlot .lp64 st1.heap obj46 4 = .value ⟨14⟩ ∧
        getSlot .lp64 st1.heap obj46 5 = .value ⟨15⟩ :=
  ⟨by decide, by decide, by decide,
    dynamicSlotsCount_covers_span.2.2 .lp64 mem0 obj46 ⟨10⟩ ⟨11⟩ ⟨12⟩ ⟨13⟩ ⟨14⟩ ⟨15⟩
      (by decide) (by decide) (by decide)⟩

/-- C4: `dynamicSlotsCount(nfixed, span)` is 0 exactly when `span <= nfixed`, and
otherwise is at least `SLOT_CAPACITY_MIN`, which is 8. -/
theorem dynamicSlotsCount_zero_or_min (nfixed span : Nat) :
    (dynamicSlotsCount nfixed span = 0 ↔ span ≤ nfixed) ∧
    (¬ span ≤ nfixed → SLOT_CAPACITY_MIN ≤ dynamicSlotsCount nfixed span) ∧
    SLOT_CAPACITY_MIN = 8 := by
  unfold dynamicSlotsCount
  refine ⟨?_, ?_, rfl⟩
  · constructor
    · intro h0
      by_contra hn
      rw [if_neg hn] at h0
      have := le_max_left SLOT_CAPACITY_MIN (span - nfixed)
      simp only [SLOT_CAPACITY_MIN] at this
      omega
    · intro hle
      rw [if_pos hle]
  · intro hn
    rw [if_neg hn]
    exact le_max_left _ _

/-- Instance of C4 at four fixed slots and span six. -/
theorem dynamicSlotsCount_zero_or_min_witness :
    ¬ 6 ≤ 4 ∧ SLOT_CAPACITY_MIN ≤ dynamicSlotsCount 4 6 :=
  ⟨by decide, (dynamicSlotsCount_zero_or_min 4 6).2.1 (by decide)⟩

end ObjectImpl

/-! ## Layout facts -/

theorem ObjectImpl.sizeof_ObjectImpl_eq (A : Arch) : ObjectImpl.sizeof A = 4 * A.ptrBytes := by
  cases A <;> decide

theorem ObjectElements.sizeof_ObjectElements_eq : ObjectElements.sizeof = 16 := by decide

theorem ElementsHeader.sizeof_ElementsHeader_eq (A : Arch) : ElementsHeader.sizeof A = 16 := by
  cases A <;> decide

theorem wordMod_ilp32 : Arch.ilp32.wordMod = 4294967296 := by
  norm_num [Arch.wordMod, Arch.ptrBytes]

theorem wordMod_lp64 : Arch.lp64.wordMod = 18446744073709551616 := by
  norm_num [Arch.wordMod, Arch.ptrBytes]

theorem uptrSub_add_cancel (A : Arch) {e : Nat} (he : e < A.wordMod) :
    uptrAdd A (uptrSub A e 16) 16 = e := by
  unfold uptrAdd uptrSub
  cases A
  · rw [wordMod_ilp32] at *; omega
  · rw [wordMod_lp64] at *; omega

theorem uptrAdd_sub_cancel (A : Arch) {h : Nat} (hh : h < A.wordMod) :
    uptrSub A (uptrAdd A h 16) 16 = h := by
  unfold uptrAdd uptrSub
  cases A
  · rw [wordMod_ilp32] at *; omega
  · rw [wordMod_lp64] at *; omega

theorem uptrSub_of_le (A : Arch) {e : Nat} (he : e < A.wordMod) (h16 : 16 ≤ e) :
    uptrSub A e 16 = e - 16 := by
  unfold uptrSub
  cases A
  · rw [wordMod_ilp32] at *; omega
  · rw [wordMod_lp64] at *; omega

/-! ## Elements of an object -/

namespace ObjectImpl

/-- C5, the claim as stated fails: on the 64-bit target the elements array whose
header starts right after the block of `objNoInline` is allocated separately
from the object and from the singleton at address 64, yet its address 4144 is
`fixedElements()` and `hasDynamicElements()` is false. -/
theorem hasDynamicElements_separate_array_counterexample :
    separatelyAllocated .lp64 64 objNoInline 0 4144 4 ∧
      fixedElements .lp64 objNoInline = 4144 ∧
      hasDynamicElements .lp64 64 { objNoInline with elements := 4144 } = false := by
  decide

/-- C5, amended: `hasDynamicElements()` is true exactly when `elements` differs
from both the empty singleton and `fixedElements()`; it is false right after
`setFixedElements()`; and it is true once `elements` points at a separately
allocated array, for an object whose block has room for at least one inline
value. -/
theorem hasDynamicElements_iff (A : Arch) (emptyObjectElements : Nat) (obj : ObjectImpl) :
    (hasDynamicElements A emptyObjectElements obj = true ↔
      obj.elements ≠ emptyObjectElements ∧ obj.elements ≠ fixedElements A obj) ∧
    hasDynamicElements A emptyObjectElements (setFixedElements A obj) = false ∧
    (∀ inlineValues elems capacity : Nat, 1 ≤ inlineValues →
      separatelyAllocated A emptyObjectElements obj inlineValues elems capacity →
      hasDynamicElements A emptyObjectElements { obj with elements := elems } = true) := by
  refine ⟨?_, ?_, ?_⟩
  · simp [hasDynamicElements]
  · simp [hasDynamicElements, setFixedElements, fixedElements, fixedSlots]
  · intro n elems cap hn hsep
    obtain ⟨hend, hhdr, hdisj, hne⟩ := hsep
    have hfix : elems ≠ fixedElements A obj := by
      unfold blockEnd at hend hdisj
      unfold fixedElements fixedSlots slotPtrAdd uptrAdd
      rw [ObjectElements.sizeof_ObjectElements_eq] at hhdr hdisj
      simp only [sizeofValue] at *
      rw [Nat.mod_eq_of_lt (by omega)]
      omega
    simp [hasDynamicElements, fixedElements, fixedSlots, hne]
    simpa [fixedElements, fixedSlots] using hfix

/-- Instance of the amended C5: `obj46`, allocated with four inline values, and
an elements array of eight values at address 20480. -/
theorem hasDynamicElements_iff_witness :
    1 ≤ 4 ∧ separatelyAllocated .lp64 64 obj46 4 20480 8 ∧
      hasDynamicElements .lp64 64 { obj46 with elements := 20480 } = true :=
  ⟨by decide, by decide,
    (hasDynamicElements_iff .lp64 64 obj46).2.2 4 20480 8 (by decide) (by decide)⟩

end ObjectImpl

/-! ## Element headers -/

namespace ElementsHeader

theorem ofTag_toNat (k : ElementsKind) : ElementsKind.ofTag k.toNat = k := by
  cases k <;> rfl

theorem toNat_ofTag {n : Nat} (h : n ≤ 11) : (ElementsKind.ofTag n).toNat = n := by
  interval_cases n <;> rfl

theorem kind_eq_value_iff (h : ElementsHeader) (k : ElementsKind) :
    kind h = .value k ↔ h.type = k.toNat := by
  unfold kind
  by_cases ht : h.type ≤ ElementsKind.ArrayBufferElements.toNat
  · simp only [ht, decide_True, mozAssert_true, Checked.value.injEq]
    constructor
    · intro hk
      rw [← hk]
      exact (toNat_ofTag ht).symm
    · intro hk
      rw [hk]
      exact ofTag_toNat k
  · simp only [ht, decide_False, mozAssert_false]
    constructor
    · intro hk
      cases hk
    · intro hk
      exfalso
      apply ht
      rw [hk]
      cases k <;> decide

theorem narrow_kindIs (h : ElementsHeader) (k : ElementsKind) :
    (kind h = .value k → narrow h (kindIs h k) = .value h) ∧
    (kind h ≠ .value k → narrow h (kindIs h k) = .assertFailed) := by
  unfold narrow kindIs
  cases hk : kind h with
  | assertFailed => simp
  | value k0 =>
    by_cases he : k0 = k
    · simp [he]
    · simp [he]

theorem accessorFor_eq (k : ElementsKind) (h : ElementsHeader) :
    accessorFor k h = narrow h (kindIs h k) := by
  cases k <;> rfl

/-- C6: for every elements header and every accessor `as*Elements`, the assertion
of the accessor passes, the accessor then returning the header itself, if and
only if `kind()` of the header is the kind the accessor names; on a header of
any other kind, or whose type tag makes `kind()` itself fail, the outcome is a
failed assertion. -/
theorem accessor_passes_iff_kind (k : ElementsKind) (h : ElementsHeader) :
    ((accessorFor k h).passes = true ↔ kind h = .value k) ∧
    (accessorFor k h = .value h ↔ kind h = .value k) ∧
    (kind h ≠ .value k → accessorFor k h = .assertFailed) := by
  rw [accessorFor_eq]
  obtain ⟨h1, h2⟩ := narrow_kindIs h k
  by_cases hk : kind h = .value k
  · simp [h1 hk, hk, Checked.passes]
  · simp [h2 hk, hk, Checked.passes]

/-- Instance of C6: `asSparseElements` on a dense header. -/
theorem accessor_passes_iff_kind_witness :
    kind denseHeader0 ≠ .value .SparseElements ∧
      asSparseElements denseHeader0 = .assertFailed :=
  ⟨by decide, (accessor_passes_iff_kind .SparseElements denseHeader0).2.2 (by decide)⟩

end ElementsHeader

/-- C7: both `fromElements` functions subtract the header size from the address
of the elements array, which is how `getElementsHeader` and `elementsHeader`
find the header of an object; `ObjectElements::fromElements` undoes
`ObjectElements::elements`, and `elements` undoes `fromElements`. -/
theorem fromElements_recovers_header (A : Arch) (e h : Nat) (he : e < A.wordMod)
    (hh : h < A.wordMod) :
    (ElementsHeader.sizeof A ≤ e →
      ElementsHeader.fromElements A e = e - ElementsHeader.sizeof A) ∧
    (ObjectElements.sizeof ≤ e →
      ObjectElements.fromElements A e = e - ObjectElements.sizeof) ∧
    ObjectElements.fromElements A (ObjectElements.elements A h) = h ∧
    ObjectElements.elements A (ObjectElements.fromElements A e) = e ∧
    (∀ obj : ObjectImpl, obj.elements = e →
      ObjectImpl.getElementsHeader A obj = ObjectElements.fromElements A e ∧
      ObjectImpl.elementsHeader A obj = ElementsHeader.fromElements A e ∧
      ObjectElements.elements A (ObjectImpl.getElementsHeader A obj) = obj.elements) := by
  unfold ElementsHeader.fromElements ObjectElements.fromElements ObjectElements.elements
    ObjectImpl.getElementsHeader ObjectImpl.elementsHeader
    ElementsHeader.fromElements ObjectElements.fromElements
  rw [ElementsHeader.sizeof_ElementsHeader_eq, ObjectElements.sizeof_ObjectElements_eq]
  refine ⟨fun h16 => uptrSub_of_le A he h16, fun h16 => uptrSub_of_le A he h16,
    uptrAdd_sub_cancel A hh, uptrSub_add_cancel A he, ?_⟩
  intro obj ho
  rw [ho]
  exact ⟨rfl, rfl, uptrSub_add_cancel A he⟩

/-- Instance of C7 on the 32-bit target: elements at 4144, header at 4128. -/
theorem fromElements_recovers_header_witness :
    4144 < Arch.ilp32.wordMod ∧ 4128 < Arch.ilp32.wordMod ∧
      ObjectElements.sizeof ≤ 4144 ∧
      ObjectElements.fromElements .ilp32 4144 = 4144 - ObjectElements.sizeof ∧
      ObjectElements.fromElements .ilp32 (ObjectElements.elements .ilp32 4128) = 4128 :=
  ⟨by decide, by decide, by decide,
    (fromElements_recovers_header .ilp32 4144 4128 (by decide) (by decide)).2.1 (by decide),
    (fromElements_recovers_header .ilp32 4144 4128 (by decide) (by decide)).2.2.1⟩

/-- C8: on either target the size of `ElementsHeader` and of `ObjectElements`,
computed from their data members, is `ValuesPerHeader` (respectively
`VALUES_PER_HEADER`) times the size of a `Value`, both constants being 2: 16
bytes, a multiple of the width of a value. -/
theorem header_size_two_values (A : Arch) :
    ElementsHeader.sizeof A = ElementsHeader.ValuesPerHeader * sizeofValue ∧
    ObjectElements.sizeof = ObjectElements.VALUES_PER_HEADER * sizeofValue ∧
    ElementsHeader.ValuesPerHeader = 2 ∧ ObjectElements.VALUES_PER_HEADER = 2 ∧
    ElementsHeader.sizeof A = 16 ∧ ObjectElements.sizeof = 16 ∧
    ElementsHeader.sizeof A % sizeofValue = 0 ∧ ObjectElements.sizeof % sizeofValue = 0 := by
  cases A <;> decide

/-- C9: two objects that share a shape have the same `numFixedSlots()`, whatever
their addresses, types, slots and elements. -/
theorem numFixedSlots_of_same_shape (o1 o2 : ObjectImpl) (h : o1.shape_ = o2.shape_) :
    ObjectImpl.numFixedSlots o1 = ObjectImpl.numFixedSlots o2 := by
  unfold ObjectImpl.numFixedSlots
  rw [h]

/-- Instance of C9: `obj46` and `obj46b` differ in every member but the shape. -/
theorem numFixedSlots_of_same_shape_witness :
    obj46.shape_ = obj46b.shape_ ∧ obj46.this ≠ obj46b.this ∧ obj46.slots ≠ obj46b.slots ∧
      obj46.type_ ≠ obj46b.type_ ∧ obj46.elements ≠ obj46b.elements ∧
      ObjectImpl.numFixedSlots obj46 = ObjectImpl.numFixedSlots obj46b :=
  ⟨by decide, by decide, by decide, by decide, by decide,
    numFixedSlots_of_same_shape obj46 obj46b (by decide)⟩

/-! ## Dense elements -/

theorem isDenseElements_of_type_zero {h : ElementsHeader} (ht : h.type = 0) :
    ElementsHeader.isDenseElements h = .value true := by
  have hk : ElementsHeader.kind h = .value .DenseElements :=
    (ElementsHeader.kind_eq_value_iff h .DenseElements).mpr ht
  simp [ElementsHeader.isDenseElements, ElementsHeader.kindIs, hk]

/-- What `denseInvariant` says in terms of the members of the header. -/
theorem denseInvariant_iff (h : ElementsHeader) :
    denseInvariant h = true ↔
      h.type = 0 ∧ ∃ il cap, h.u = .dense il cap ∧ il ≤ cap ∧ il ≤ h.length := by
  constructor
  · intro hinv
    unfold denseInvariant DenseElementsHeader.initializedLength DenseElementsHeader.capacity
      DenseElementsHeader.length at hinv
    cases hk : ElementsHeader.kind h with
    | assertFailed =>
      simp [ElementsHeader.isDenseElements, ElementsHeader.kindIs, hk] at hinv
    | value k0 =>
      by_cases hd : k0 = .DenseElements
      · subst hd
        have ht : h.type = 0 := (ElementsHeader.kind_eq_value_iff h _).mp hk
        refine ⟨ht, ?_⟩
        cases hu : h.u with
        | sparse sh =>
          simp [ElementsHeader.isDenseElements, ElementsHeader.kindIs, hk,
            DenseElementsHeader.denseMember, hu] at hinv
        | dense il cap =>
          simp [ElementsHeader.isDenseElements, ElementsHeader.kindIs, hk,
            DenseElementsHeader.denseMember, hu] at hinv
          exact ⟨il, cap, rfl, hinv.1, hinv.2⟩
      · simp [ElementsHeader.isDenseElements, ElementsHeader.kindIs, hk, hd] at hinv
  · rintro ⟨ht, il, cap, hu, h1, h2⟩
    unfold denseInvariant DenseElementsHeader.initializedLength DenseElementsHeader.capacity
      DenseElementsHeader.length
    simp [isDenseElements_of_type_zero ht, DenseElementsHeader.denseMember, hu, h1, h2]

/-- One dense `defineElement` on a header satisfying the invariant passes its
assertions and, unless it answers `ConvertToSparse`, leaves the invariant. -/
theorem defineElement_preserves (P : DensePolicy) (e : Elements) (a : DefineArgs)
    (h : denseInvariant e.header = true) :
    ∃ r e1, DenseElementsHeader.defineElement P e a = .value (r, e1) ∧
      (r ≠ .ConvertToSparse → denseInvariant e1.header = true) := by
  obtain ⟨ht, il, cap, hu, h1, h2⟩ := (denseInvariant_iff e.header).mp h
  unfold DenseElementsHeader.defineElement DenseElementsHeader.initializedLength
    DenseElementsHeader.capacity DenseElementsHeader.length
  simp only [isDenseElements_of_type_zero ht, DenseElementsHeader.denseMember, hu,
    Checked.bind_value, mozAssert_true]
  by_cases hc : a.index < cap
  · simp only [hc, if_true]
    refine ⟨_, _, rfl, fun _ => ?_⟩
    rw [denseInvariant_iff]
    refine ⟨ht, _, _, rfl, ?_, ?_⟩
    · exact max_le h1 hc
    · exact max_le (le_trans h2 (le_max_left _ _)) (le_max_right _ _)
  · simp only [hc, if_false]
    by_cases hs : P.tooSparse cap e.header.length a.index = true
    · simp only [hs, if_true]
      exact ⟨_, _, rfl, fun hne => absurd rfl hne⟩
    · simp only [hs, if_false]
      cases hg : P.grow cap a.index with
      | none =>
        exact ⟨_, _, rfl, fun _ => h⟩
      | some room =>
        refine ⟨_, _, rfl, fun _ => ?_⟩
        rw [denseInvariant_iff]
        refine ⟨ht, _, _, rfl, ?_, ?_⟩
        · exact max_le (by omega) (by omega)
        · exact max_le (le_trans h2 (le_max_left _ _)) (le_max_right _ _)

/-- C10: from dense elements whose header satisfies `initializedLength <= capacity`
and `initializedLength <= length`, a run of `defineElement` calls passes every
assertion, and if none of them answered `ConvertToSparse` then every call was
made and the header at the end is dense and satisfies both inequalities. -/
theorem defineElements_preserves_denseInvariant (P : DensePolicy) (calls : List DefineArgs)
    (e : Elements) (h : denseInvariant e.header = true) :
    ∃ rs e1, defineElements P e calls = .value (rs, e1) ∧
      (DenseElementsResult.ConvertToSparse ∉ rs →
        rs.length = calls.length ∧ denseInvariant e1.header = true) := by
  induction calls generalizing e with
  | nil => exact ⟨[], e, rfl, fun _ => ⟨rfl, h⟩⟩
  | cons a rest ih =>
    obtain ⟨r, e1, hstep, hinv⟩ := defineElement_preserves P e a h
    by_cases hr : r = .ConvertToSparse
    · subst hr
      refine ⟨[.ConvertToSparse], e1, ?_, fun hn => absurd (List.mem_singleton_self _) hn⟩
      simp [defineElements, hstep]
    · obtain ⟨rs, e2, hrun, hfin⟩ := ih e1 (hinv hr)
      refine ⟨r :: rs, e2, ?_, ?_⟩
      · simp only [defineElements, hstep, Checked.bind_value]
        cases r with
        | ConvertToSparse => exact absurd rfl hr
        | Failure => simp [hrun]
        | Succeeded => simp [hrun]
      · intro hn
        have hn2 : DenseElementsResult.ConvertToSparse ∉ rs :=
          fun hm => hn (List.mem_cons_of_mem _ hm)
        obtain ⟨hl, hi⟩ := hfin hn2
        exact ⟨by simp [hl], hi⟩

/-- Instance of C10: the three calls `calls0` on `elements0` under `policy0`. -/
theorem defineElements_preserves_denseInvariant_witness :
    denseInvariant elements0.header = true ∧
      ∃ rs e1, defineElements policy0 elements0 calls0 = .value (rs, e1) ∧
        (DenseElementsResult.ConvertToSparse ∉ rs →
          rs.length = calls0.length ∧ denseInvariant e1.header = true) :=
  ⟨by decide, defineElements_preserves_denseInvariant policy0 calls0 elements0 (by decide)⟩

/-- C13: for every typed numeric kind and the raw buffer kind, `defineElement`
returns `false` and changes nothing whenever a getter or a setter is supplied
and whenever the index is at least the fixed length; and whatever the
definition, the header with its length is afterwards what it was. -/
theorem fixedLength_defineElement_rejects (k : ElementsKind) (T : TypedPolicy) (e : Elements)
    (a : DefineArgs) (_hk : k.isTyped = true ∨ k = .ArrayBufferElements) :
    ((a.getter.isSome = true ∨ a.setter.isSome = true ∨ e.header.length ≤ a.index) →
      fixedLengthDefineElement k T e a = (false, e)) ∧
    (fixedLengthDefineElement k T e a).2.header = e.header ∧
    TypedElementsHeader.byteLength (fixedLengthDefineElement k T e a).2.header
      = TypedElementsHeader.byteLength e.header := by
  have hhdr : (fixedLengthDefineElement k T e a).2.header = e.header := by
    cases k <;>
      simp only [fixedLengthDefineElement, TypedElementsHeader.defineElement,
        ArrayBufferElementsHeader.defineElement] <;>
      split_ifs <;> rfl
  refine ⟨?_, hhdr, by rw [hhdr]⟩
  intro h
  cases k <;>
    simp only [fixedLengthDefineElement, TypedElementsHeader.defineElement,
      ArrayBufferElementsHeader.defineElement] <;>
    split_ifs with h1 h2 h3 <;> first
      | rfl
      | (exfalso
         simp only [Bool.or_eq_true, not_or, Bool.not_eq_true, not_le] at h1 h3
         rcases h with h | h | h
         · simp [h] at h1
         · simp [h] at h1
         · omega)

/-- Instance of C13: a definition with a getter on `Uint8Elements` storage. -/
theorem fixedLength_defineElement_rejects_witness :
    (ElementsKind.Uint8Elements.isTyped = true ∨
        ElementsKind.Uint8Elements = .ArrayBufferElements) ∧
      (getterDefine.getter.isSome = true ∨ getterDefine.setter.isSome = true ∨
        uint8Elements0.header.length ≤ getterDefine.index) ∧
      fixedLengthDefineElement .Uint8Elements typedPolicy0 uint8Elements0 getterDefine
        = (false, uint8Elements0) :=
  ⟨by decide, by decide,
    (fixedLength_defineElement_rejects .Uint8Elements typedPolicy0 uint8Elements0 getterDefine
      (by decide)).1 (by decide)⟩

/-! ## Conversion to sparse -/

/-- C16, the claim as stated fails: the enumeration has nine numeric typed
kinds, not eight, `Uint8ClampedElements` being a kind of its own, and twelve
enumerators, not eleven. -/
theorem elementsKind_eight_typed_counterexample :
    (ElementsKind.all.filter ElementsKind.isTyped).length = 9 ∧
      ¬ (ElementsKind.all.filter ElementsKind.isTyped).length = 8 ∧
      ElementsKind.Uint8ClampedElements.isTyped = true ∧
      ElementsKind.Uint8ClampedElements ≠ ElementsKind.Uint8Elements ∧
      ¬ ElementsKind.all.length = 1 + 1 + 8 + 1 := by
  decide

/-- C16, amended: the discriminator has exactly twelve variants, with the tags 0
to 11: dense, sparse, nine numeric typed kinds (over eight element types,
`Uint8Elements` and `Uint8ClampedElements` sharing `uint8_t`), and one raw
byte-buffer kind. -/
theorem elementsKind_variants :
    (∀ k : ElementsKind, k ∈ ElementsKind.all) ∧
    ElementsKind.all.Nodup ∧
    ElementsKind.all.length = 12 ∧
    ElementsKind.all.map ElementsKind.toNat = List.range 12 ∧
    ElementsKind.all.filter ElementsKind.isTyped =
      [.Uint8Elements, .Int8Elements, .Uint16Elements, .Int16Elements, .Uint32Elements,
        .Int32Elements, .Uint8ClampedElements, .Float32Elements, .Float64Elements] ∧
    ElementsKind.all.filter (fun k => !k.isTyped) =
      [.DenseElements, .SparseElements, .ArrayBufferElements] ∧
    ((ElementsKind.all.filter ElementsKind.isTyped).map ElementsKind.elementType).dedup.length
      = 8 := by
  refine ⟨?_, by decide, by decide, by decide, by decide, by decide, by decide⟩
  intro k
  cases k <;> decide

/-! ## Barrier protocol, offsets and bounds -/

namespace ObjectImpl

theorem replay_writeEvents (m : Heap) (location : Nat) (v : Value) (rest : List SlotEvent) :
    replay m (writeEvents (m.load location) location v ++ rest)
      = replay (m.store location v) rest := by
  simp [writeEvents, replay]

/-- A run of `setSlot` calls records events that replay, from the heap before the
run, to the heap after it. -/
theorem setSlots_replay (A : Arch) (obj : ObjectImpl) :
    ∀ (ws : List (Nat × Value)) (st st1 : SlotMemory), setSlots A obj st ws = .value st1 →
      ∃ evs, st1.events = st.events ++ evs ∧ replay st.heap evs = some st1.heap := by
  intro ws
  induction ws with
  | nil =>
    intro st st1 h
    simp only [setSlots, Checked.value.injEq] at h
    subst h
    exact ⟨[], by simp, rfl⟩
  | cons w rest ih =>
    intro st st1 h
    obtain ⟨i, v⟩ := w
    simp only [setSlots] at h
    by_cases hi : i < slotSpan obj
    · rw [setSlot_eq A st v hi] at h
      obtain ⟨evs, he, hr⟩ := ih _ _ h
      refine ⟨writeEvents (st.heap.load (getSlotAddressUnchecked A obj i))
        (getSlotAddressUnchecked A obj i) v ++ evs, ?_, ?_⟩
      · rw [he]
        simp [barrieredStore, writeEvents]
      · rw [replay_writeEvents]
        exact hr
    · simp [setSlot, hi] at h

/-- C15: a `setSlot` or `setFixedSlot` that stores does so under the barrier
protocol: the events it records are the pre-write barrier with the value the
slot held before (the one `getSlot` or `getFixedSlot` returned), then the
store, then the post-write barrier with the location of the slot; a fixed slot
is written alike by both; and the events of a run of `setSlot` calls replay in
protocol from the heap before to the heap after. -/
theorem slot_write_barrier_protocol (A : Arch) (st : SlotMemory) (obj : ObjectImpl)
    (slot : Nat) (v : Value) :
    (∀ st1, setSlot A st obj slot v = .value st1 →
      slot < slotSpan obj ∧
      getSlot A st.heap obj slot
        = .value (st.heap.load (getSlotAddressUnchecked A obj slot)) ∧
      st1.events = st.events ++
        writeEvents (st.heap.load (getSlotAddressUnchecked A obj slot))
          (getSlotAddressUnchecked A obj slot) v ∧
      st1.heap = st.heap.store (getSlotAddressUnchecked A obj slot) v) ∧
    (slot < slotSpan obj → (setSlot A st obj slot v).passes = true) ∧
    (∀ st1, setFixedSlot A st obj slot v = .value st1 →
      slot < numFixedSlots obj ∧
      getFixedSlot A st.heap obj slot
        = .value (st.heap.load (slotPtrAdd (fixedSlots A obj) slot)) ∧
      st1.events = st.events ++
        writeEvents (st.heap.load (slotPtrAdd (fixedSlots A obj) slot))
          (slotPtrAdd (fixedSlots A obj) slot) v ∧
      st1.heap = st.heap.store (slotPtrAdd (fixedSlots A obj) slot) v) ∧
    (slot < numFixedSlots obj → (setFixedSlot A st obj slot v).passes = true) ∧
    (slot < numFixedSlots obj → slot < slotSpan obj →
      setFixedSlot A st obj slot v = setSlot A st obj slot v) ∧
    (∀ (ws : List (Nat × Value)) (st1 : SlotMemory), setSlots A obj st ws = .value st1 →
      ∃ evs, st1.events = st.events ++ evs ∧ replay st.heap evs = some st1.heap) := by
  refine ⟨?_, ?_, ?_, ?_, ?_, fun ws st1 h => setSlots_replay A obj ws st st1 h⟩
  · intro st1 h
    by_cases hs : slot < slotSpan obj
    · rw [setSlot_eq A st v hs] at h
      cases h
      exact ⟨hs, getSlot_eq_load A _ hs, rfl, rfl⟩
    · simp [setSlot, hs] at h
  · intro hs
    rw [setSlot_eq A st v hs]
    rfl
  · intro st1 h
    by_cases hf : slot < numFixedSlots obj
    · simp only [setFixedSlot, getFixedSlotRef, hf, decide_True, mozAssert_true,
        Checked.bind_value, Checked.value.injEq] at h
      subst h
      refine ⟨hf, ?_, rfl, rfl⟩
      simp [getFixedSlot, hf]
    · simp [setFixedSlot, getFixedSlotRef, hf] at h
  · intro hf
    simp [setFixedSlot, getFixedSlotRef, hf, Checked.passes]
  · intro hf hs
    rw [setSlot_eq A st v hs]
    simp [setFixedSlot, getFixedSlotRef, hf, getSlotAddressUnchecked]

/-- Instance of C15: `setSlot` on the dynamic slot 5 of `obj46`. -/
theorem slot_write_barrier_protocol_witness :
    5 < slotSpan obj46 ∧ (setSlot .lp64 mem0 obj46 5 ⟨9⟩).passes = true ∧
      ∀ st1, setSlot .lp64 mem0 obj46 5 ⟨9⟩ = .value st1 →
        st1.events = mem0.events ++
          writeEvents (mem0.heap.load (getSlotAddressUnchecked .lp64 obj46 5))
            (getSlotAddressUnchecked .lp64 obj46 5) ⟨9⟩ :=
  ⟨by decide, (slot_write_barrier_protocol .lp64 mem0 obj46 5 ⟨9⟩).2.1 (by decide),
    fun st1 h => ((slot_write_barrier_protocol .lp64 mem0 obj46 5 ⟨9⟩).1 st1 h).2.2.1⟩

/-- C17: for an object whose fixed slot `s` lies inside the address space,
`getFixedSlotOffset(s)` is `sizeof(ObjectImpl) + s * sizeof(Value)` and, added
to the address of the object, is the location `fixedSlots()[s]` that
`getFixedSlot(s)` reads; `offsetOfFixedElements()` is `getFixedSlotOffset(2)`,
the offset of `fixedElements()`; and `getPrivateDataOffset(n)` is
`getFixedSlotOffset(n)`. -/
theorem getFixedSlotOffset_agrees (A : Arch) (obj : ObjectImpl) (s : Nat)
    (h : blockEnd A obj (s + 1) ≤ A.wordMod) :
    getFixedSlotOffset A s = ObjectImpl.sizeof A + s * sizeofValue ∧
    obj.this + getFixedSlotOffset A s = slotPtrAdd (fixedSlots A obj) s ∧
    (∀ m : Heap, s < numFixedSlots obj →
      getFixedSlot A m obj s = .value (m.load (obj.this + getFixedSlotOffset A s))) ∧
    offsetOfFixedElements A = getFixedSlotOffset A 2 ∧
    obj.this + offsetOfFixedElements A = fixedElements A obj ∧
    (∀ n : Nat, getPrivateDataOffset A n = getFixedSlotOffset A n) := by
  have hoff : getFixedSlotOffset A s = ObjectImpl.sizeof A + s * sizeofValue := by
    unfold blockEnd at h
    unfold getFixedSlotOffset uptrAdd
    rw [ObjectImpl.sizeof_ObjectImpl_eq] at *
    simp only [sizeofValue] at *
    cases A
    · rw [wordMod_ilp32] at *; simp only [Arch.ptrBytes] at *; omega
    · rw [wordMod_lp64] at *; simp only [Arch.ptrBytes] at *; omega
  have hfix : fixedSlots A obj = obj.this + ObjectImpl.sizeof A := by
    unfold blockEnd at h
    unfold fixedSlots uptrAdd
    simp only [sizeofValue] at h
    exact Nat.mod_eq_of_lt (by omega)
  have hloc : obj.this + getFixedSlotOffset A s = slotPtrAdd (fixedSlots A obj) s := by
    rw [hoff, hfix]
    unfold slotPtrAdd
    omega
  have helem : offsetOfFixedElements A = ObjectImpl.sizeof A + 16 := by
    unfold offsetOfFixedElements uptrAdd
    rw [ObjectElements.sizeof_ObjectElements_eq, ObjectImpl.sizeof_ObjectImpl_eq]
    cases A
    · rw [wordMod_ilp32]; simp only [Arch.ptrBytes]
    · rw [wordMod_lp64]; simp only [Arch.ptrBytes]
  have hoff2 : getFixedSlotOffset A 2 = ObjectImpl.sizeof A + 16 := by
    unfold getFixedSlotOffset uptrAdd
    rw [ObjectImpl.sizeof_ObjectImpl_eq]
    simp only [sizeofValue]
    cases A
    · rw [wordMod_ilp32]; simp only [Arch.ptrBytes]
    · rw [wordMod_lp64]; simp only [Arch.ptrBytes]
  refine ⟨hoff, hloc, ?_, by rw [helem, hoff2], ?_, fun _ => rfl⟩
  · intro m hs
    rw [hloc]
    simp [getFixedSlot, hs]
  · rw [helem]
    unfold fixedElements
    rw [hfix]
    unfold slotPtrAdd
    simp only [sizeofValue]
    omega

/-- Instance of C17: fixed slot 3 of `obj46` on the 64-bit target, at offset 56. -/
theorem getFixedSlotOffset_agrees_witness :
    blockEnd .lp64 obj46 (3 + 1) ≤ Arch.lp64.wordMod ∧
      getFixedSlotOffset .lp64 3 = ObjectImpl.sizeof .lp64 + 3 * sizeofValue ∧
      obj46.this + getFixedSlotOffset .lp64 3 = slotPtrAdd (fixedSlots .lp64 obj46) 3 :=
  ⟨by decide, (getFixedSlotOffset_agrees .lp64 obj46 3 (by decide)).1,
    (getFixedSlotOffset_agrees .lp64 obj46 3 (by decide)).2.1⟩

/-- C20: for a slot below the slot span of an object whose dynamic slot array has
`dynamicSlotsCount(numFixedSlots, slotSpan)` entries, the range assertion
passes, and `getSlot` and `getSlotAddressUnchecked` index either the fixed slot
`slot`, with `slot < numFixedSlots`, or the dynamic entry `slot - numFixedSlots`,
which the unsigned subtraction yields without wrapping and which is below the
dynamic capacity. -/
theorem slot_access_in_bounds (A : Arch) (obj : ObjectImpl) (slot : Nat)
    (h : slot < slotSpan obj) :
    slotInRange obj slot false = true ∧
    ((slot < numFixedSlots obj ∧
        getSlotAddressUnchecked A obj slot = slotPtrAdd (fixedSlots A obj) slot) ∨
      (numFixedSlots obj ≤ slot ∧
        u32sub slot (numFixedSlots obj) = slot - numFixedSlots obj ∧
        slot - numFixedSlots obj < dynamicSlotsCount (numFixedSlots obj) (slotSpan obj) ∧
        getSlotAddressUnchecked A obj slot
          = slotPtrAdd obj.slots (slot - numFixedSlots obj))) ∧
    (∀ m : Heap, getSlot A m obj slot = .value (m.load (getSlotAddressUnchecked A obj slot))) := by
  have hs := slotSpan_lt obj
  have hc := span_le_capacity (numFixedSlots obj) (slotSpan obj)
  refine ⟨slotInRange_of_lt_span h false, ?_, fun m => getSlot_eq_load A m h⟩
  by_cases hf : slot < numFixedSlots obj
  · left
    exact ⟨hf, by simp [getSlotAddressUnchecked, hf]⟩
  · right
    have hle : numFixedSlots obj ≤ slot := Nat.not_lt.mp hf
    have hsub := u32sub_of_le hle (by omega : slot < U32)
    refine ⟨hle, hsub, by omega, ?_⟩
    simp [getSlotAddressUnchecked, hf, hsub]

/-- Instance of C20: slot 5 of `obj46`, entry 1 of its eight dynamic slots. -/
theorem slot_access_in_bounds_witness :
    5 < slotSpan obj46 ∧ slotInRange obj46 5 false = true ∧
      getSlot .lp64 mem0.heap obj46 5
        = .value (mem0.heap.load (getSlotAddressUnchecked .lp64 obj46 5)) :=
  ⟨by decide, (slot_access_in_bounds .lp64 obj46 5 (by decide)).1,
    (slot_access_in_bounds .lp64 obj46 5 (by decide)).2.2 mem0.heap⟩

end ObjectImpl

/-! ## Placeholders, construction, framing, predicates and offsets -/

/-- C21: the conversion paths are placeholders.  For every index and extra,
`ensureDenseElementsInitialized` returns `Failure` and `makeElementsSparse`
returns `false` with the elements as they were (release build, where the
markers of unreached code do nothing); and in any build neither returns
anything else: never `ConvertToSparse` or `Succeeded`, never `true`, never
changed elements. -/
theorem conversion_paths_are_placeholders (index extra : Nat) (e : Elements) :
    ObjectImpl.ensureDenseElementsInitialized false index extra = .value .Failure ∧
    ObjectImpl.makeElementsSparse false e = .value (false, e) ∧
    (∀ (debug : Bool) (r : DenseElementsResult),
      ObjectImpl.ensureDenseElementsInitialized debug index extra = .value r →
      r = .Failure ∧ r ≠ .ConvertToSparse ∧ r ≠ .Succeeded) ∧
    (∀ (debug : Bool) (r : Bool × Elements),
      ObjectImpl.makeElementsSparse debug e = .value r → r = (false, e)) := by
  refine ⟨rfl, rfl, ?_, ?_⟩
  · intro debug r hr
    cases debug
    · simp only [ObjectImpl.ensureDenseElementsInitialized, notReached] at hr
      cases hr
      exact ⟨rfl, by decide, by decide⟩
    · simp [ObjectImpl.ensureDenseElementsInitialized, notReached] at hr
  · intro debug r hr
    cases debug
    · simp only [ObjectImpl.makeElementsSparse, notReached] at hr
      cases hr
      rfl
    · simp [ObjectImpl.makeElementsSparse, notReached] at hr

/-- Instance of C21 at index 1000000 with no extra, on `elements0`. -/
theorem conversion_paths_are_placeholders_witness :
    ObjectImpl.ensureDenseElementsInitialized false 1000000 0 = .value .Failure ∧
      DenseElementsResult.Failure ≠ .ConvertToSparse ∧
      ObjectImpl.makeElementsSparse false elements0 = .value (false, elements0) :=
  ⟨rfl,
    ((conversion_paths_are_placeholders 1000000 0 elements0).2.2.1 false .Failure rfl).2.1,
    (conversion_paths_are_placeholders 1000000 0 elements0).2.1⟩

/-- C22: a freshly constructed `ObjectElements(capacity, length)` has the given
capacity and length and initialized length 0, whatever its member `unused`
holds, and so its initialized length is at most its capacity and at most its
length. -/
theorem ObjectElements_fresh (capacity length garbage : Nat) :
    (ObjectElements.create capacity length garbage).capacity = capacity ∧
    (ObjectElements.create capacity length garbage).length = length ∧
    (ObjectElements.create capacity length garbage).initializedLength = 0 ∧
    (ObjectElements.create capacity length garbage).initializedLength
      ≤ (ObjectElements.create capacity length garbage).capacity ∧
    (ObjectElements.create capacity length garbage).initializedLength
      ≤ (ObjectElements.create capacity length garbage).length ∧
    (ObjectElements.create capacity length garbage).initializedWithin :=
  ⟨rfl, rfl, rfl, Nat.zero_le _, Nat.zero_le _, Nat.zero_le _, Nat.zero_le _⟩

/-- C24: under the layout invariant (the dynamic slot array shares no byte with
the fixed slots), distinct slots below the slot span have distinct locations,
`getSlotRef(i)` is the location of slot `i`, and a store through it is read
back at `i` and leaves `getSlot(j)` as it was. -/
theorem slot_addressing_injective (A : Arch) (obj : ObjectImpl) (i j : Nat) (m : Heap)
    (v : Value) (hl : ObjectImpl.slotsLayoutOk A obj) (hi : i < ObjectImpl.slotSpan obj)
    (hj : j < ObjectImpl.slotSpan obj) (hij : i ≠ j) :
    ObjectImpl.getSlotAddressUnchecked A obj i ≠ ObjectImpl.getSlotAddressUnchecked A obj j ∧
    ObjectImpl.getSlotRef A obj i = .value (ObjectImpl.getSlotAddressUnchecked A obj i) ∧
    ObjectImpl.getSlot A (m.store (ObjectImpl.getSlotAddressUnchecked A obj i) v) obj j
      = ObjectImpl.getSlot A m obj j ∧
    ObjectImpl.getSlot A (m.store (ObjectImpl.getSlotAddressUnchecked A obj i) v) obj i
      = .value v := by
  have hne := ObjectImpl.getSlotAddressUnchecked_injective hl hi hj hij
  refine ⟨hne, ObjectImpl.getSlotRef_eq A hi, ?_, ?_⟩
  · rw [ObjectImpl.getSlot_eq_load A _ hj, ObjectImpl.getSlot_eq_load A _ hj,
      ObjectImpl.load_store_other _ _ (Ne.symm hne)]
  · rw [ObjectImpl.getSlot_eq_load A _ hi, ObjectImpl.load_store_same]

/-- Instance of C24: the fixed slot 3 and the dynamic slot 4 of `obj46`. -/
theorem slot_addressing_injective_witness :
    ObjectImpl.slotsLayoutOk .lp64 obj46 ∧ 3 < ObjectImpl.slotSpan obj46 ∧
      4 < ObjectImpl.slotSpan obj46 ∧ 3 ≠ 4 ∧
      ObjectImpl.getSlotAddressUnchecked .lp64 obj46 3
        ≠ ObjectImpl.getSlotAddressUnchecked .lp64 obj46 4 ∧
      ObjectImpl.getSlot .lp64
          (mem0.heap.store (ObjectImpl.getSlotAddressUnchecked .lp64 obj46 3) ⟨21⟩) obj46 4
        = ObjectImpl.getSlot .lp64 mem0.heap obj46 4 :=
  ⟨by decide, by decide, by decide, by decide,
    (slot_addressing_injective .lp64 obj46 3 4 mem0.heap ⟨21⟩ (by decide) (by decide)
      (by decide) (by decide)).1,
    (slot_addressing_injective .lp64 obj46 3 4 mem0.heap ⟨21⟩ (by decide) (by decide)
      (by decide) (by decide)).2.2.1⟩

theorem predicateFor_eq (k : ElementsKind) (h : ElementsHeader) :
    ElementsHeader.predicateFor k h = ElementsHeader.kindIs h k := by
  cases k <;> rfl

/-- C25: for a header whose type tag is at most `ArrayBufferElements`, `kind()`
passes its assertion, the predicate `is*Elements` naming that kind is true, and
each of the eleven others is false. -/
theorem exactly_one_predicate (h : ElementsHeader)
    (ht : h.type ≤ ElementsKind.ArrayBufferElements.toNat) :
    ∃ k, ElementsHeader.kind h = .value k ∧
      ElementsHeader.predicateFor k h = .value true ∧
      (∀ k1, k1 ≠ k → ElementsHeader.predicateFor k1 h = .value false) ∧
      (∀ k1, ElementsHeader.predicateFor k1 h = .value true → k1 = k) ∧
      (ElementsKind.all.filter
        (fun k1 => decide (ElementsHeader.predicateFor k1 h = .value true))) = [k] := by
  have hk : ElementsHeader.kind h = .value (ElementsKind.ofTag h.type) := by
    simp [ElementsHeader.kind, ht]
  have hp : ∀ k1, ElementsHeader.predicateFor k1 h
      = .value (decide (ElementsKind.ofTag h.type = k1)) := by
    intro k1
    rw [predicateFor_eq]
    simp [ElementsHeader.kindIs, hk]
  refine ⟨ElementsKind.ofTag h.type, hk, by simp [hp], ?_, ?_, ?_⟩
  · intro k1 hne
    simp [hp, Ne.symm hne]
  · intro k1 h1
    rw [hp] at h1
    simp only [Checked.value.injEq, decide_eq_true_eq] at h1
    exact h1.symm
  · simp only [hp, Checked.value.injEq, decide_eq_true_eq]
    cases ElementsKind.ofTag h.type <;> decide

/-- Instance of C25 at the dense header `denseHeader0`. -/
theorem exactly_one_predicate_witness :
    denseHeader0.type ≤ ElementsKind.ArrayBufferElements.toNat ∧
      ∃ k, ElementsHeader.kind denseHeader0 = .value k ∧
        ElementsHeader.predicateFor k denseHeader0 = .value true ∧
        (∀ k1, k1 ≠ k → ElementsHeader.predicateFor k1 denseHeader0 = .value false) :=
  ⟨by decide,
    let ⟨k, h1, h2, h3, _⟩ := exactly_one_predicate denseHeader0 (by decide)
    ⟨k, h1, h2, h3⟩⟩

/-- C26: the three offsets are -16, -12 and -8: negative, pairwise distinct and
not below `-sizeof(ObjectElements)`; and for an elements address `e`, the
address `e + offsetOfX()` is that of member `X` of the header
`ObjectElements::fromElements(e)`. -/
theorem ObjectElements_offsets (A : Arch) (e : Nat) (he : e < A.wordMod) :
    ObjectElements.offsetOfCapacity = -16 ∧
    ObjectElements.offsetOfInitializedLength = -12 ∧
    ObjectElements.offsetOfLength = -8 ∧
    -(ObjectElements.sizeof : Int) ≤ ObjectElements.offsetOfCapacity ∧
    ObjectElements.offsetOfCapacity < ObjectElements.offsetOfInitializedLength ∧
    ObjectElements.offsetOfInitializedLength < ObjectElements.offsetOfLength ∧
    ObjectElements.offsetOfLength < 0 ∧
    addressAt A e ObjectElements.offsetOfCapacity
      = ObjectElements.memberAddress A (ObjectElements.fromElements A e) 0 ∧
    addressAt A e ObjectElements.offsetOfInitializedLength
      = ObjectElements.memberAddress A (ObjectElements.fromElements A e) 1 ∧
    addressAt A e ObjectElements.offsetOfLength
      = ObjectElements.memberAddress A (ObjectElements.fromElements A e) 2 ∧
    (ObjectElements.sizeof ≤ e →
      (e : Int) + ObjectElements.offsetOfCapacity
        = ((ObjectElements.fromElements A e : Nat) : Int)) := by
  have h0 : ObjectElements.offsetOfCapacity = -16 := by decide
  have h1 : ObjectElements.offsetOfInitializedLength = -12 := by decide
  have h2 : ObjectElements.offsetOfLength = -8 := by decide
  have hs : ObjectElements.sizeof = 16 := ObjectElements.sizeof_ObjectElements_eq
  have m0 : offsetofMember ObjectElements.members 0 = 0 := by decide
  have m1 : offsetofMember ObjectElements.members 1 = 4 := by decide
  have m2 : offsetofMember ObjectElements.members 2 = 8 := by decide
  rw [h0, h1, h2, hs]
  unfold addressAt ObjectElements.memberAddress ObjectElements.fromElements uptrAdd uptrSub
  rw [m0, m1, m2, hs]
  cases A
  · rw [wordMod_ilp32] at *
    refine ⟨rfl, rfl, rfl, by omega, by omega, by omega, by omega, ?_, ?_, ?_, ?_⟩ <;> omega
  · rw [wordMod_lp64] at *
    refine ⟨rfl, rfl, rfl, by omega, by omega, by omega, by omega, ?_, ?_, ?_, ?_⟩ <;> omega

/-- Instance of C26 on the 64-bit target: elements at 4144, header at 4128. -/
theorem ObjectElements_offsets_witness :
    4144 < Arch.lp64.wordMod ∧ ObjectElements.sizeof ≤ 4144 ∧
      addressAt .lp64 4144 ObjectElements.offsetOfLength
        = ObjectElements.memberAddress .lp64 (ObjectElements.fromElements .lp64 4144) 2 ∧
      ((4144 : Nat) : Int) + ObjectElements.offsetOfCapacity
        = ((ObjectElements.fromElements .lp64 4144 : Nat) : Int) :=
  ⟨by decide, by decide, (ObjectElements_offsets .lp64 4144 (by decide)).2.2.2.2.2.2.2.2.2.1,
    (ObjectElements_offsets .lp64 4144 (by decide)).2.2.2.2.2.2.2.2.2.2 (by decide)⟩

end js

/-! ## Gamepad list -/

namespace mozilla.dom

theorem U32_val : U32 = 4294967296 := by norm_num [U32]

theorem toUint32_toInt32 {n : Nat} (h : n < U32) : toUint32 (toInt32 n) = n := by
  unfold toUint32 toInt32
  rw [U32_val] at *
  split_ifs <;> omega

theorem toInt32_ne_neg_one {n : Nat} (h : n + 1 < U32) : toInt32 n ≠ -1 := by
  unfold toInt32
  rw [U32_val] at *
  split_ifs <;> omega

theorem subUint32_succ_one {n : Nat} (h : n + 1 < U32) : subUint32 (n + 1) 1 = n := by
  unfold subUint32
  rw [U32_val] at *
  omega

namespace GamepadService

theorem NewConnectionEvent_mGamepads (s : GamepadService) (index : Nat) (connected : Bool) :
    (NewConnectionEvent s index connected).mGamepads = s.mGamepads := by
  unfold NewConnectionEvent
  split_ifs <;> rfl

/-- The loop of `AddGamepad` stops at the lowest null entry. -/
theorem firstEmpty_some :
    ∀ (l : List (Option nsDOMGamepad)) (i k : Nat), firstEmpty i l = some k →
      i ≤ k ∧ l[k - i]? = some none ∧ ∀ j, j < k - i → ∃ g, l[j]? = some (some g) := by
  intro l
  induction l with
  | nil =>
    intro i k h
    simp [firstEmpty] at h
  | cons x rest ih =>
    intro i k h
    cases x with
    | none =>
      simp only [firstEmpty, Option.some.injEq] at h
      subst h
      simp
    | some g =>
      simp only [firstEmpty] at h
      obtain ⟨hle, hk, hbelow⟩ := ih (i + 1) k h
      have hki : k - i = (k - (i + 1)) + 1 := by omega
      refine ⟨by omega, ?_, ?_⟩
      · rw [hki, List.getElem?_cons_succ]
        exact hk
      · intro j hj
        cases j with
        | zero => exact ⟨g, by simp⟩
        | succ j =>
          rw [List.getElem?_cons_succ]
          exact hbelow j (by omega)

/-- The loop of `AddGamepad` finds nothing only when no entry is null. -/
theorem firstEmpty_none :
    ∀ (l : List (Option nsDOMGamepad)) (i : Nat), firstEmpty i l = none →
      ∀ j, j < l.length → ∃ g, l[j]? = some (some g) := by
  intro l
  induction l with
  | nil =>
    intro i _ j hj
    simp at hj
  | cons x rest ih =>
    intro i h j hj
    cases x with
    | none => simp [firstEmpty] at h
    | some g =>
      simp only [firstEmpty] at h
      cases j with
      | zero => exact ⟨g, by simp⟩
      | succ j =>
        rw [List.getElem?_cons_succ]
        exact ih (i + 1) h j (by simpa using hj)

theorem AddGamepad_of_some (s : GamepadService) (id : String) (numButtons numAxes i : Nat)
    (hf : firstEmpty 0 s.mGamepads = some i) (hi : i + 1 < U32) :
    AddGamepad s id numButtons numAxes =
      (i, NewConnectionEvent
        { s with
          mGamepads :=
            s.mGamepads.set i (some ((nsDOMGamepad.create id 0 numButtons numAxes).SetIndex i)) }
        i true) := by
  have h1 := toInt32_ne_neg_one hi
  have h2 := toUint32_toInt32 (by omega : i < U32)
  simp only [AddGamepad, hf, h1, decide_False, Bool.false_eq_true, if_false, h2]

theorem AddGamepad_of_none (s : GamepadService) (id : String) (numButtons numAxes : Nat)
    (hf : firstEmpty 0 s.mGamepads = none) (hlen : s.mGamepads.length + 1 < U32) :
    AddGamepad s id numButtons numAxes =
      (s.mGamepads.length, NewConnectionEvent
        { s with
          mGamepads :=
            s.mGamepads ++
              [some ((nsDOMGamepad.create id 0 numButtons numAxes).SetIndex
                s.mGamepads.length)] }
        s.mGamepads.length true) := by
  have h2 := toUint32_toInt32 (by omega : s.mGamepads.length < U32)
  have h3 := subUint32_succ_one hlen
  simp only [AddGamepad, hf, decide_True, if_true, h3, h2]

/-- C18: `AddGamepad` returns the index at which the new gamepad is stored
afterwards.  Every entry below that index held a gamepad, and the index is
that of a null entry or else the previous length of the list; the entry at the
index is the new gamepad with its own index set to the value returned; every
other entry of the list is what it was. -/
theorem AddGamepad_returns_index (s : GamepadService) (id : String) (numButtons numAxes : Nat)
    (hlen : s.mGamepads.length + 1 < U32) :
    ((s.AddGamepad id numButtons numAxes).1 < s.mGamepads.length ∧
        s.mGamepads[(s.AddGamepad id numButtons numAxes).1]? = some none ∨
      (s.AddGamepad id numButtons numAxes).1 = s.mGamepads.length) ∧
    (∀ j, j < (s.AddGamepad id numButtons numAxes).1 → ∃ g, s.mGamepads[j]? = some (some g)) ∧
    (s.AddGamepad id numButtons numAxes).2.mGamepads[(s.AddGamepad id numButtons numAxes).1]?
      = some (some ((nsDOMGamepad.create id 0 numButtons numAxes).SetIndex
          (s.AddGamepad id numButtons numAxes).1)) ∧
    ((nsDOMGamepad.create id 0 numButtons numAxes).SetIndex
        (s.AddGamepad id numButtons numAxes).1).index = (s.AddGamepad id numButtons numAxes).1 ∧
    (∀ j, j ≠ (s.AddGamepad id numButtons numAxes).1 →
      (s.AddGamepad id numButtons numAxes).2.mGamepads[j]? = s.mGamepads[j]?) := by
  cases hf : firstEmpty 0 s.mGamepads with
  | some i =>
    obtain ⟨-, hi, hbelow⟩ := firstEmpty_some s.mGamepads 0 i hf
    simp only [Nat.sub_zero] at hi hbelow
    have hilt : i < s.mGamepads.length := by
      by_contra hge
      rw [List.getElem?_eq_none (Nat.not_lt.mp hge)] at hi
      cases hi
    rw [AddGamepad_of_some s id numButtons numAxes i hf (by omega)]
    simp only [NewConnectionEvent_mGamepads]
    refine ⟨Or.inl ⟨hilt, hi⟩, hbelow, ?_, rfl, ?_⟩
    · simp [hilt]
    · intro j hj
      rw [List.getElem?_set_ne (Ne.symm hj)]
  | none =>
    have hall := firstEmpty_none s.mGamepads 0 hf
    rw [AddGamepad_of_none s id numButtons numAxes hf hlen]
    simp only [NewConnectionEvent_mGamepads]
    refine ⟨by simp, by simpa using hall, ?_, rfl, ?_⟩
    · simp
    · intro j hj
      rcases Nat.lt_or_gt_of_ne hj with hlt | hgt
      · rw [List.getElem?_append_left hlt]
      · rw [List.getElem?_eq_none (by simp; omega), List.getElem?_eq_none (by omega)]

/-- Instance of C18: a third gamepad added to the list with a hole goes to
index 0. -/
theorem AddGamepad_returns_index_witness :
    listWithHole.length + 1 < U32 ∧
      (AddGamepad ⟨listWithHole, false, []⟩ "pad c" 2 2).1 = 0 ∧
      ∀ j, j ≠ (AddGamepad ⟨listWithHole, false, []⟩ "pad c" 2 2).1 →
        (AddGamepad ⟨listWithHole, false, []⟩ "pad c" 2 2).2.mGamepads[j]? = listWithHole[j]? :=
  ⟨by decide, by decide,
    (AddGamepad_returns_index ⟨listWithHole, false, []⟩ "pad c" 2 2 (by decide)).2.2.2.2⟩

theorem eraseIdx_set_same {α : Type} (x : α) :
    ∀ (l : List α) (i : Nat), (l.set i x).eraseIdx i = l.eraseIdx i := by
  intro l
  induction l with
  | nil => intro i; rfl
  | cons y rest ih =>
    intro i
    cases i with
    | zero => rfl
    | succ i => simp [List.set, List.eraseIdx, ih i]

/-- Where the entry at the index is a gamepad, `RemoveGamepad` completes: a last
entry is removed, another entry is replaced by null, and every other entry
keeps its index. -/
theorem RemoveGamepad_of_present (s : GamepadService) (index : Nat) (g : nsDOMGamepad)
    (hg : s.mGamepads[index]? = some (some g)) (hlen : s.mGamepads.length < U32) :
    ∃ s1, RemoveGamepad s index = .done s1 ∧
      (index + 1 = s.mGamepads.length → s1.mGamepads = s.mGamepads.eraseIdx index) ∧
      (index + 1 ≠ s.mGamepads.length → s1.mGamepads = s.mGamepads.set index none) ∧
      ∀ j, j ≠ index → s1.mGamepads[j]? = s.mGamepads[j]? := by
  have hilt : index < s.mGamepads.length := by
    by_contra hge
    rw [List.getElem?_eq_none (Nat.not_lt.mp hge)] at hg
    cases hg
  have hsub : subUint32 s.mGamepads.length 1 = s.mGamepads.length - 1 := by
    unfold subUint32
    rw [U32_val] at *
    omega
  simp only [RemoveGamepad, hilt, if_true, List.get?_eq_getElem?, hg,
    NewConnectionEvent_mGamepads, List.length_set, hsub]
  by_cases hlast : index = s.mGamepads.length - 1
  · rw [if_pos hlast]
    refine ⟨_, rfl, ?_, ?_, ?_⟩
    · intro _
      simp [NewConnectionEvent_mGamepads, eraseIdx_set_same]
    · intro hne
      omega
    · intro j hj
      simp only [NewConnectionEvent_mGamepads, eraseIdx_set_same]
      rw [List.getElem?_eraseIdx]
      split_ifs with hlt
      · rfl
      · rw [List.getElem?_eq_none (by omega), List.getElem?_eq_none (by omega)]
  · rw [if_neg hlast]
    refine ⟨_, rfl, ?_, ?_, ?_⟩
    · intro h
      omega
    · intro _
      simp [NewConnectionEvent_mGamepads, List.set_set]
    · intro j hj
      simp only [NewConnectionEvent_mGamepads, List.set_set]
      rw [List.getElem?_set_ne (Ne.symm hj)]

theorem RemoveGamepad_past_length (s : GamepadService) (index : Nat)
    (h : s.mGamepads.length ≤ index) : RemoveGamepad s index = .done s := by
  simp [RemoveGamepad, Nat.not_lt.mpr h]

/-- C19, the defect: after two gamepads were added and the first was removed, the
list is a null entry followed by the second gamepad; index 0 is below its
length, and `RemoveGamepad(0)` dereferences the null entry instead of
completing with the other gamepad left at index 1. -/
theorem RemoveGamepad_null_entry :
    (∃ s1, RemoveGamepad serviceTwo 0 = .done s1 ∧ s1.mGamepads = listWithHole ∧
      0 < s1.mGamepads.length ∧ RemoveGamepad s1 0 = .nullDereference) ∧
    RemoveGamepad ⟨listWithHole, false, []⟩ 0 = .nullDereference := by
  refine ⟨⟨_, rfl, by decide, by decide, by decide⟩, by decide⟩

end GamepadService

end mozilla.dom

/-! ## Input events and backends -/

namespace mozilla.dom

/-- C27, the defect: the list reached by `AddGamepad`, `AddGamepad`,
`RemoveGamepad(0)` has a null entry at index 0; that index passes the bounds
check, and the entry dereferenced by `RemoveGamepad(0)`, `NewButtonEvent(0, ..)`
and `NewAxisMoveEvent(0, ..)` is null. -/
theorem dereferenced_entry_null :
    GamepadService.runCalls service0 [.add "pad a" 4 2, .add "pad b" 8 4, .remove 0]
        = .done serviceWithHole ∧
      0 < serviceWithHole.mGamepads.length ∧
      serviceWithHole.mShuttingDown = false ∧
      serviceWithHole.mGamepads[0]? = some none ∧
      GamepadService.RemoveGamepad serviceWithHole 0 = .nullDereference ∧
      GamepadService.NewButtonEvent settersKeep none serviceWithHole 0 2 true
        = .nullDereference ∧
      GamepadService.NewAxisMoveEvent settersKeep none serviceWithHole 0 1 (1 / 2)
        = .nullDereference := by
  refine ⟨by decide, by decide, rfl, rfl, by decide, ?_, ?_⟩
  · simp [GamepadService.NewButtonEvent, serviceWithHole, listWithHole]
  · simp [GamepadService.NewAxisMoveEvent, serviceWithHole, listWithHole]

namespace windows

/-- C23: `HatPosToAxes` gives (0, 0) for a position whose low word is 0xFFFF, and
for the eight positions of a D-pad, from 0 to 315 degrees in steps of 45, in
hundredths of a degree, the axes (0,-1), (1,-1), (1,0), (1,1), (0,1), (-1,1),
(-1,0) and (-1,-1), whatever `axes` held before. -/
theorem HatPosToAxes_positions (axes : HatState) :
    (∀ hatPos : Nat, LOWORD hatPos = 0xFFFF → HatPosToAxes hatPos axes = { x := 0, y := 0 }) ∧
    HatPosToAxes 0 axes = { x := 0, y := -1 } ∧
    HatPosToAxes 4500 axes = { x := 1, y := -1 } ∧
    HatPosToAxes 9000 axes = { x := 1, y := 0 } ∧
    HatPosToAxes 13500 axes = { x := 1, y := 1 } ∧
    HatPosToAxes 18000 axes = { x := 0, y := 1 } ∧
    HatPosToAxes 22500 axes = { x := -1, y := 1 } ∧
    HatPosToAxes 27000 axes = { x := -1, y := 0 } ∧
    HatPosToAxes 31500 axes = { x := -1, y := -1 } ∧
    [45 * DI_DEGREES, 90 * DI_DEGREES, 135 * DI_DEGREES, 180 * DI_DEGREES, 225 * DI_DEGREES,
      270 * DI_DEGREES, 315 * DI_DEGREES] = [4500, 9000, 13500, 18000, 22500, 27000, 31500] := by
  refine ⟨?_, ?_, ?_, ?_, ?_, ?_, ?_, ?_, ?_, by decide⟩
  · intro hatPos h
    simp [HatPosToAxes, h]
  all_goals simp [HatPosToAxes, LOWORD, DI_DEGREES]

/-- Instance of C23: the centred position as DirectInput reports it, all bits
set. -/
theorem HatPosToAxes_positions_witness :
    LOWORD 0xFFFFFFFF = 0xFFFF ∧
      HatPosToAxes 0xFFFFFFFF { x := 1, y := 1 } = { x := 0, y := 0 } :=
  ⟨by decide, (HatPosToAxes_positions { x := 1, y := 1 }).1 0xFFFFFFFF (by decide)⟩

/-- C28: running an event of type `Axis` makes exactly one call, the
`NewAxisMoveEvent` for axis `mWhich`, the code it runs on into for want of a
`break` making none; `Button` makes exactly one `NewButtonEvent`; `HatX` and
`HatY` make exactly one `NewAxisMoveEvent` each, for the x and the y axis of the
hat; `HatXY` makes exactly those two; `Unknown` makes none. -/
theorem Run_reports (round : ℚ → ℚ) (uninitialized : HatState) (ev : GamepadEvent) :
    (ev.mType = .Axis → GamepadEvent.Run round uninitialized ev =
      [ServiceCall.NewAxisMoveEvent (toUint32 ev.mGamepad.id) (toUint32 ev.mWhich)
        (GamepadEvent.adjustedData round ev.mData)]) ∧
    (ev.mType = .Button → GamepadEvent.Run round uninitialized ev =
      [ServiceCall.NewButtonEvent (toUint32 ev.mGamepad.id) (toUint32 ev.mWhich)
        (decide (Nat.land ev.mData BUTTON_DOWN_MASK ≠ 0))]) ∧
    (ev.mType = .HatX → GamepadEvent.Run round uninitialized ev =
      [ServiceCall.NewAxisMoveEvent (toUint32 ev.mGamepad.id)
        (toUint32 (ev.mGamepad.numAxes + 2 * ev.mWhich))
        (HatPosToAxes ev.mData uninitialized).x]) ∧
    (ev.mType = .HatY → GamepadEvent.Run round uninitialized ev =
      [ServiceCall.NewAxisMoveEvent (toUint32 ev.mGamepad.id)
        (toUint32 (ev.mGamepad.numAxes + 2 * ev.mWhich + 1))
        (HatPosToAxes ev.mData uninitialized).y]) ∧
    (ev.mType = .HatXY → GamepadEvent.Run round uninitialized ev =
      [ServiceCall.NewAxisMoveEvent (toUint32 ev.mGamepad.id)
        (toUint32 (ev.mGamepad.numAxes + 2 * ev.mWhich))
        (HatPosToAxes ev.mData uninitialized).x,
       ServiceCall.NewAxisMoveEvent (toUint32 ev.mGamepad.id)
        (toUint32 (ev.mGamepad.numAxes + 2 * ev.mWhich + 1))
        (HatPosToAxes ev.mData uninitialized).y]) ∧
    (ev.mType = .Unknown → GamepadEvent.Run round uninitialized ev = []) ∧
    (GamepadEvent.Run round uninitialized ev).length =
      (match ev.mType with
        | .HatXY => 2
        | .Unknown => 0
        | _ => 1) := by
  refine ⟨?_, ?_, ?_, ?_, ?_, ?_, ?_⟩
  · intro h
    simp [GamepadEvent.Run, GamepadEvent.hatBlock, h]
  · intro h
    simp [GamepadEvent.Run, h]
  · intro h
    simp [GamepadEvent.Run, GamepadEvent.hatBlock, h]
  · intro h
    simp [GamepadEvent.Run, GamepadEvent.hatBlock, h]
  · intro h
    simp [GamepadEvent.Run, GamepadEvent.hatBlock, h]
  · intro h
    simp [GamepadEvent.Run, h]
  · cases h : ev.mType <;> simp [GamepadEvent.Run, GamepadEvent.hatBlock, h]

end windows

/-- Instance of C28: an axis event on axis 2 of `windowsPad`, with exact
arithmetic. -/
theorem Run_reports_witness :
    (windows.GamepadEvent.mk windowsPad .Axis 2 65535).mType = .Axis ∧
      windows.GamepadEvent.Run id { x := 0, y := 0 }
          (windows.GamepadEvent.mk windowsPad .Axis 2 65535)
        = [ServiceCall.NewAxisMoveEvent (toUint32 windowsPad.id) (toUint32 2)
            (windows.GamepadEvent.adjustedData id 65535)] :=
  ⟨rfl, (windows.Run_reports id { x := 0, y := 0 }
    (windows.GamepadEvent.mk windowsPad .Axis 2 65535)).1 rfl⟩

theorem isBinary32_one : isBinary32 1 :=
  ⟨1, 0, by norm_num, by norm_num, by norm_num, by norm_num⟩

theorem isBinary32_neg_one : isBinary32 (-1) :=
  ⟨-1, 0, by norm_num, by norm_num, by norm_num, by norm_num⟩

theorem isBinary32_below_neg_one : isBinary32 (-32769 / 32768) :=
  ⟨-32769, -15, by norm_num, by norm_num, by norm_num, by norm_num [zpow_neg]⟩

theorem isRounding_id : IsRounding id :=
  ⟨fun _ _ h => h, fun _ _ => rfl⟩

namespace unix

theorem normalizedAxis_min_lt {round : ℚ → ℚ} (hr : IsRounding round) :
    normalizedAxis round (-32768) < -1 := by
  have hq : ((-32768 : Int) : ℚ) / kMaxAxisValue ≤ -32769 / 32768 := by
    norm_num [kMaxAxisValue]
  have h1 := hr.mono _ _ hq
  rw [hr.exact _ isBinary32_below_neg_one] at h1
  unfold normalizedAxis
  have h2 : (-32769 / 32768 : ℚ) < -1 := by norm_num
  exact lt_of_le_of_lt h1 h2

/-- C29, the claim as stated fails: the least signed 16-bit value, -32768, is an
axis value a joystick event can carry, and its normalized value is
-32768 / 32767 when taken exactly and below -1 under every rounding. -/
theorem normalizedAxis_counterexample :
    isInt16 (-32768) ∧
      normalizedAxis id (-32768) = -32768 / 32767 ∧
      normalizedAxis id (-32768) < -1 ∧
      GamepadEvent.Run id ⟨1⟩ axisEventMin
        = [ServiceCall.NewAxisMoveEvent 1 3 (-32768 / 32767)] ∧
      (∀ round : ℚ → ℚ, IsRounding round → normalizedAxis round (-32768) < -1) := by
  refine ⟨by unfold isInt16; omega, ?_, normalizedAxis_min_lt isRounding_id, ?_,
    fun round hr => normalizedAxis_min_lt hr⟩
  · norm_num [normalizedAxis, kMaxAxisValue]
  · have h : toUint32 1 = 1 := by decide
    simp [GamepadEvent.Run, axisEventMin, JS_EVENT_BUTTON, JS_EVENT_AXIS, normalizedAxis,
      kMaxAxisValue, h]

/-- C29, amended: for every axis value from -32767 to 32767, the range the
joystick interface documents, running the axis event passes exactly one
`NewAxisMoveEvent`, whose normalized value lies in the closed interval
[-1, 1]. -/
theorem normalizedAxis_in_range (round : ℚ → ℚ) (hr : IsRounding round) (mGamepad : Gamepad)
    (mEvent : js_event) (ht : mEvent.type = JS_EVENT_AXIS) (hlo : -32767 ≤ mEvent.value)
    (hhi : mEvent.value ≤ 32767) :
    GamepadEvent.Run round mGamepad mEvent
      = [ServiceCall.NewAxisMoveEvent (toUint32 mGamepad.index) mEvent.number
          (normalizedAxis round mEvent.value)] ∧
    -1 ≤ normalizedAxis round mEvent.value ∧ normalizedAxis round mEvent.value ≤ 1 := by
  have hv1 : (-32767 : ℚ) ≤ (mEvent.value : ℚ) := by exact_mod_cast hlo
  have hv2 : (mEvent.value : ℚ) ≤ 32767 := by exact_mod_cast hhi
  have hq1 : (-1 : ℚ) ≤ (mEvent.value : ℚ) / kMaxAxisValue := by
    unfold kMaxAxisValue
    rw [le_div_iff₀ (by norm_num)]
    linarith
  have hq2 : (mEvent.value : ℚ) / kMaxAxisValue ≤ 1 := by
    unfold kMaxAxisValue
    rw [div_le_one (by norm_num)]
    exact hv2
  refine ⟨?_, ?_, ?_⟩
  · simp [GamepadEvent.Run, ht, JS_EVENT_BUTTON, JS_EVENT_AXIS]
  · have h := hr.mono _ _ hq1
    rw [hr.exact _ isBinary32_neg_one] at h
    exact h
  · have h := hr.mono _ _ hq2
    rw [hr.exact _ isBinary32_one] at h
    exact h

end unix

/-- Instance of the amended C29: the axis event `axisEventMid`, with exact
arithmetic. -/
theorem normalizedAxis_in_range_witness :
    IsRounding id ∧ axisEventMid.type = unix.JS_EVENT_AXIS ∧ -32767 ≤ axisEventMid.value ∧
      axisEventMid.value ≤ 32767 ∧
      -1 ≤ unix.normalizedAxis id axisEventMid.value ∧
      unix.normalizedAxis id axisEventMid.value ≤ 1 :=
  ⟨isRounding_id, by decide, by decide, by decide,
    (unix.normalizedAxis_in_range id isRounding_id ⟨1⟩ axisEventMid (by decide) (by decide)
      (by decide)).2⟩

end mozilla.dom
